import Mathlib

/-!
# UDP relay handler of tun2socks (`proxy/udp.go`)

A shallow embedding of `udpHandler` and its four methods `Connect`,
`ReceiveTo`, `Close` and `fetchUDPInput`.

* The two `sync.Map` fields are association lists keyed by the flow.
* Every call the handler makes on a collaborator (logger, SOCKS5 dialer,
  session stater, relay socket, virtual flow, buffer pool) is recorded as an
  `Event`; a method returns the new handler state, its Go return value and
  the events it produced, in program order.
* Whatever a collaborator answers (the dial result, the result of a read or
  a write, the clock) is an argument of the method that asks for it.
* A method call runs from start to end without another call in between. The
  goroutine `fetchUDPInput` touches the handler state only in its deferred
  `Close`, so a run of it is placed at the moment of that `Close`.
* Values typed here as `PacketConn` and `Addr` are non-nil: a dial that
  returns a nil error returns both.
-/

namespace Tun2socks

/-! ## Values of the Go standard library and of the collaborating packages -/

/-- A byte slice. -/
abbrev Bytes := List Nat

/-- A `net.IP`: a byte slice. -/
abbrev IP := List Nat

/-- A `time.Time` or `time.Duration`, in nanoseconds. -/
abbrev Time := Int

/-- A non-nil Go `error`. `text` is what `Error()` returns; `netTimeout` is
`some t` when the value implements `net.Error` with `Timeout() = t`, and
`none` when the assertion `err.(net.Error)` fails. -/
structure GoError where
  text : String
  netTimeout : Option Bool
deriving DecidableEq, Repr

/-- A non-nil `*net.UDPAddr`. -/
structure UDPAddr where
  IP : IP
  Port : Int
  Zone : String
deriving DecidableEq, Repr

/-- A `core.UDPConn`, the virtual flow: its identity and what `LocalAddr()`
reports (`Network()` and `String()`). -/
structure UDPConn where
  id : Nat
  localNetwork : String
  localAddr : String
deriving DecidableEq, Repr

/-- A `stats.Session` as `Connect` fills it in. -/
structure Session where
  ProcessName : String
  Network : String
  DialerAddr : String
  ClientAddr : String
  TargetAddr : String
  UploadBytes : Int
  DownloadBytes : Int
  SessionStart : Time
deriving DecidableEq, Repr

/-- A non-nil `net.PacketConn`: the relay socket `socks.DialUDP` returns, or
that socket wrapped by `stats.NewSessionPacketConn`. -/
inductive PacketConn where
  | sock (id : Nat) (localAddr : String)
  | sessionConn (inner : PacketConn) (sess : Session)
deriving DecidableEq, Repr

/-- A non-nil `net.Addr`: the relay address, by its string form. -/
structure Addr where
  str : String
deriving DecidableEq, Repr

/-- A `dns.FakeDns` value: its one method used by the handler. -/
structure FakeDns where
  IPToHost : IP → String × Bool

/-- A non-nil `stats.SessionStater`. -/
structure SessionStater where
  id : Nat
deriving DecidableEq, Repr

/-- Library functions the handler calls and whose code is outside the
repository: `net.IP.String` and `lsof.GetProcessName`. -/
structure Env where
  ipString : IP → String
  getProcessName : String → String

/-- The calls the handler makes on its collaborators. -/
inductive Event where
  | logWarn (msg : String)
  | logAccess (process outbound network localAddr targetAddr : String)
  | dialUDP (proxyAddr targetAddr : String)
  | addSession (conn : UDPConn) (sess : Session)
  | removeSession (conn : UDPConn)
  | connClose (conn : UDPConn)
  | remoteClose (rc : PacketConn)
  | writeTo (rc : PacketConn) (data : Bytes) (addr : Addr)
  | writeFrom (conn : UDPConn) (data : Bytes) (addr : Option UDPAddr)
  | setDeadline (rc : PacketConn) (t : Time)
  | readFrom (rc : PacketConn)
  | goFetchUDPInput (conn : UDPConn) (input : PacketConn) (addr : Option UDPAddr)
  | bufGet
  | bufPut
deriving DecidableEq, Repr

/-! ## `sync.Map` keyed by the flow -/

/-- A `sync.Map` from flows to `V`: at most the first entry of a key counts. -/
abbrev SyncMap (V : Type) := List (UDPConn × V)

/-- The method `m.Load(key)`. -/
def SyncMap.Load {V : Type} : SyncMap V → UDPConn → Option V
  | [], _ => none
  | (k, v) :: rest, key => if k = key then some v else SyncMap.Load rest key

/-- The method `m.Delete(key)`. -/
def SyncMap.Delete {V : Type} (m : SyncMap V) (key : UDPConn) : SyncMap V :=
  m.filter (fun e => decide (e.1 ≠ key))

/-- The method `m.Store(key, value)`. -/
def SyncMap.Store {V : Type} (m : SyncMap V) (key : UDPConn) (value : V) : SyncMap V :=
  (key, value) :: SyncMap.Delete m key

/-! ## Standard-library string functions -/

/-- The function `strconv.Itoa`. -/
def Itoa (i : Int) : String :=
  match i with
  | Int.ofNat n => Nat.repr n
  | Int.negSucc n => "-" ++ Nat.repr (n + 1)

/-- The function `net.JoinHostPort`: a host containing a colon is put in
brackets. -/
def JoinHostPort (host port : String) : String :=
  if host.data.contains ':' then "[" ++ host ++ "]:" ++ port
  else host ++ ":" ++ port

/-- The Go builtin `len` on a string: its length in bytes. -/
def len (s : String) : Nat := s.utf8ByteSize

/-- The method `(*net.UDPAddr).String`, as `%v` prints an address. -/
def UDPAddr.String (env : Env) : Option UDPAddr → String
  | none => "<nil>"
  | some a =>
    let ip := if a.IP.length = 0 then "" else env.ipString a.IP
    if a.Zone ≠ "" then JoinHostPort (ip ++ "%" ++ a.Zone) (Itoa a.Port)
    else JoinHostPort ip (Itoa a.Port)

/-- The text `LocalAddr().String()` of a relay connection; the stats wrapper
embeds the connection it wraps. -/
def PacketConn.localAddr : PacketConn → String
  | PacketConn.sock _ a => a
  | PacketConn.sessionConn inner _ => PacketConn.localAddr inner

/-! ## The handler -/

/-- The Go struct `udpHandler`. -/
structure udpHandler where
  proxyHost : String
  proxyPort : Int
  timeout : Time
  remoteAddrMap : SyncMap Addr
  remoteConnMap : SyncMap PacketConn
  fakeDns : Option FakeDns
  sessionStater : Option SessionStater

/-- The constructor `NewUDPHandler`: both maps start empty. -/
def NewUDPHandler (proxyHost : String) (proxyPort : Int) (timeout : Time)
    (fakeDns : Option FakeDns) (sessionStater : Option SessionStater) : udpHandler :=
  { proxyHost := proxyHost, proxyPort := proxyPort, timeout := timeout,
    remoteAddrMap := [], remoteConnMap := [],
    fakeDns := fakeDns, sessionStater := sessionStater }

/-- What a handler method leaves behind: the handler state, the returned
`error` (`none` is `nil`) and the collaborator calls, in order. -/
structure Step where
  h : udpHandler
  err : Option GoError
  events : List Event

/-- The method `udpHandler.Close`. -/
def Close (h : udpHandler) (conn : UDPConn) : Step :=
  let ev1 := [Event.connClose conn]
  let (connMap, ev2) :=
    match SyncMap.Load h.remoteConnMap conn with
    | some remoteConn =>
      (SyncMap.Delete h.remoteConnMap conn, [Event.remoteClose remoteConn])
    | none => (h.remoteConnMap, [])
  let addrMap := SyncMap.Delete h.remoteAddrMap conn
  let ev3 :=
    match h.sessionStater with
    | some _ => [Event.removeSession conn]
    | none => []
  { h := { h with remoteConnMap := connMap, remoteAddrMap := addrMap },
    err := none,
    events := ev1 ++ ev2 ++ ev3 }

/-- The first lines of `Connect` after the nil check: the host to dial is the
textual IP, replaced by the fake-DNS host when the resolver knows the IP. -/
def targetHost (env : Env) (h : udpHandler) (target : UDPAddr) : String :=
  match h.fakeDns with
  | some dns =>
    match dns.IPToHost target.IP with
    | (host, true) => host
    | (_, false) => env.ipString target.IP
  | none => env.ipString target.IP

/-- The method `udpHandler.Connect`. `dial` is what `socks.DialUDP` answers if
it is called (a nil error comes with a non-nil connection and a non-nil relay
address), `now` what `time.Now()` answers. -/
def Connect (env : Env) (h : udpHandler) (conn : UDPConn) (target : Option UDPAddr)
    (dial : Except GoError (PacketConn × Addr)) (now : Time) : Step :=
  match target with
  | none =>
    { h := h, err := some ⟨"UDP target is invalid", none⟩,
      events := [Event.logWarn ("UDP target is invalid: " ++ conn.localAddr)] }
  | some t =>
    let targetAddr := JoinHostPort (targetHost env h t) (Itoa t.Port)
    if len targetAddr = 0 then
      { h := h, err := some ⟨"target address is empty", none⟩, events := [] }
    else
      let proxyAddr := JoinHostPort h.proxyHost (Itoa h.proxyPort)
      match dial with
      | Except.error e =>
        { h := h, err := some e,
          events := [Event.dialUDP proxyAddr targetAddr,
                     Event.logWarn ("DialUDP " ++ proxyAddr ++ " error: " ++ e.text)] }
      | Except.ok (remoteConn0, remoteAddr) =>
        let process := env.getProcessName conn.localAddr
        let (remoteConn, evSess) :=
          match h.sessionStater with
          | some _ =>
            let sess : Session :=
              { ProcessName := process, Network := conn.localNetwork,
                DialerAddr := PacketConn.localAddr remoteConn0,
                ClientAddr := conn.localAddr, TargetAddr := targetAddr,
                UploadBytes := 0, DownloadBytes := 0, SessionStart := now }
            (PacketConn.sessionConn remoteConn0 sess, [Event.addSession conn sess])
          | none => (remoteConn0, [])
        { h := { h with remoteAddrMap := SyncMap.Store h.remoteAddrMap conn remoteAddr,
                        remoteConnMap := SyncMap.Store h.remoteConnMap conn remoteConn },
          err := none,
          events := [Event.dialUDP proxyAddr targetAddr] ++ evSess ++
            [Event.goFetchUDPInput conn remoteConn (some t),
             Event.logAccess process "proxy" "udp" conn.localAddr targetAddr] }

/-- The method `udpHandler.ReceiveTo`. `w` is what `remoteConn.WriteTo` answers
if it is called (`none` is a nil error). -/
def ReceiveTo (env : Env) (h : udpHandler) (conn : UDPConn) (data : Bytes)
    (addr : Option UDPAddr) (w : Option GoError) : Step :=
  match SyncMap.Load h.remoteAddrMap conn, SyncMap.Load h.remoteConnMap conn with
  | some remoteAddr, some remoteConn =>
    match w with
    | some e =>
      let c := Close h conn
      { h := c.h, err := some ⟨"write remote failed: " ++ e.text, none⟩,
        events := Event.writeTo remoteConn data remoteAddr :: c.events }
    | none =>
      { h := h, err := none, events := [Event.writeTo remoteConn data remoteAddr] }
  | _, _ =>
    let c := Close h conn
    { h := c.h,
      err := some ⟨"proxy connection " ++ conn.localAddr ++ "->" ++ UDPAddr.String env addr
                    ++ " does not exists", none⟩,
      events := c.events }

/-- What `input.ReadFrom(buf)` answers: the byte count `n`, the contents of
`buf` after the call, and the error (`none` is nil). -/
structure ReadResult where
  n : Nat
  buf : Bytes
  err : Option GoError
deriving DecidableEq, Repr

/-- What the collaborators answer during one turn of the loop of
`fetchUDPInput`: the clock, the read on the relay socket, and the
`conn.WriteFrom` that follows a successful read. -/
structure FetchIter where
  now : Time
  read : ReadResult
  write : Option GoError
deriving DecidableEq, Repr

/-- The `for` loop of `fetchUDPInput`, run against the answers `iters`. The
second component tells whether the loop has returned; it is false when the
answers ran out with the loop still going. `time.Now().Add(h.timeout)` is the
sum of the two. -/
def fetchLoop (h : udpHandler) (conn : UDPConn) (input : PacketConn)
    (addr : Option UDPAddr) : List FetchIter → List Event × Bool
  | [] => ([], false)
  | it :: rest =>
    let head := [Event.setDeadline input (it.now + h.timeout), Event.readFrom input]
    match it.read.err with
    | some e =>
      match e.netTimeout with
      | some true => (head, true)
      | _ =>
        (head ++ [Event.logWarn ("failed to read UDP data from remote: " ++ e.text)], true)
    | none =>
      let wr := Event.writeFrom conn (it.read.buf.take it.read.n) addr
      match it.write with
      | some e =>
        (head ++ [wr, Event.logWarn ("failed to write UDP data: " ++ e.text)], true)
      | none =>
        let r := fetchLoop h conn input addr rest
        (head ++ wr :: r.1, r.2)

/-- What a run of the goroutine leaves behind. `returned` is false while the
loop is still going (the answers ran out). -/
structure FetchRun where
  h : udpHandler
  returned : Bool
  events : List Event

/-- The method `udpHandler.fetchUDPInput`. The loop itself reads only
`h.timeout`; `h` is the handler state at the moment the deferred function
runs `Close`. -/
def fetchUDPInput (h : udpHandler) (conn : UDPConn) (input : PacketConn)
    (addr : Option UDPAddr) (iters : List FetchIter) : FetchRun :=
  match fetchLoop h conn input addr iters with
  | (evs, true) =>
    let c := Close h conn
    { h := c.h, returned := true,
      events := Event.bufGet :: evs ++ c.events ++ [Event.bufPut] }
  | (evs, false) =>
    { h := h, returned := false, events := Event.bufGet :: evs }

/-! ## Sequences of calls on one handler -/

/-- One completed call on the handler, with the answers it received. `fetch`
is a run of the goroutine `fetchUDPInput`. -/
inductive Op where
  | connect (conn : UDPConn) (target : Option UDPAddr)
      (dial : Except GoError (PacketConn × Addr)) (now : Time)
  | receiveTo (conn : UDPConn) (data : Bytes) (addr : Option UDPAddr) (w : Option GoError)
  | close (conn : UDPConn)
  | fetch (conn : UDPConn) (input : PacketConn) (addr : Option UDPAddr)
      (iters : List FetchIter)

/-- The handler state and the events after one call. -/
def applyOp (env : Env) (h : udpHandler) : Op → udpHandler × List Event
  | Op.connect conn target dial now =>
    let s := Connect env h conn target dial now
    (s.h, s.events)
  | Op.receiveTo conn data addr w =>
    let s := ReceiveTo env h conn data addr w
    (s.h, s.events)
  | Op.close conn =>
    let s := Close h conn
    (s.h, s.events)
  | Op.fetch conn input addr iters =>
    let r := fetchUDPInput h conn input addr iters
    (r.h, r.events)

/-- The handler state and the whole event trace after a sequence of calls. -/
def run (env : Env) : udpHandler → List Op → udpHandler × List Event
  | h, [] => (h, [])
  | h, op :: ops =>
    let r := applyOp env h op
    let r2 := run env r.1 ops
    (r2.1, r.2 ++ r2.2)

/-! ## Reading a trace -/

/-- The target addresses handed to `socks.DialUDP`, in order. -/
def dialTargets : List Event → List String
  | [] => []
  | Event.dialUDP _ t :: rest => t :: dialTargets rest
  | _ :: rest => dialTargets rest

/-- The number of `AddSession(conn, _)` calls. -/
def countAddSession (conn : UDPConn) : List Event → Nat
  | [] => 0
  | Event.addSession c _ :: rest =>
    (if c = conn then 1 else 0) + countAddSession conn rest
  | _ :: rest => countAddSession conn rest

/-- The number of `RemoveSession(conn)` calls. -/
def countRemoveSession (conn : UDPConn) (evs : List Event) : Nat :=
  evs.count (Event.removeSession conn)

/-- The number of `conn.Close()` calls, one per run of `Close(conn)`. -/
def countConnClose (conn : UDPConn) (evs : List Event) : Nat :=
  evs.count (Event.connClose conn)

/-- The `WriteFrom` calls: flow, datagram and source address, in order. -/
def writeFromCalls : List Event → List (UDPConn × Bytes × Option UDPAddr)
  | [] => []
  | Event.writeFrom c d a :: rest => (c, d, a) :: writeFromCalls rest
  | _ :: rest => writeFromCalls rest

/-- The `WriteTo` calls: relay connection, datagram and address, in order. -/
def writeToCalls : List Event → List (PacketConn × Bytes × Addr)
  | [] => []
  | Event.writeTo rc d a :: rest => (rc, d, a) :: writeToCalls rest
  | _ :: rest => writeToCalls rest

/-- The relay connections closed, in order. -/
def remoteCloses : List Event → List PacketConn
  | [] => []
  | Event.remoteClose rc :: rest => rc :: remoteCloses rest
  | _ :: rest => remoteCloses rest

/-- The warnings logged, in order. -/
def warnings : List Event → List String
  | [] => []
  | Event.logWarn m :: rest => m :: warnings rest
  | _ :: rest => warnings rest

/-- The read deadlines set, in order. -/
def deadlines : List Event → List (PacketConn × Time)
  | [] => []
  | Event.setDeadline rc t :: rest => (rc, t) :: deadlines rest
  | _ :: rest => deadlines rest

/-- The goroutines started: flow, relay connection and source address. -/
def goroutines : List Event → List (UDPConn × PacketConn × Option UDPAddr)
  | [] => []
  | Event.goFetchUDPInput c rc a :: rest => (c, rc, a) :: goroutines rest
  | _ :: rest => goroutines rest

/-- Whether every `ReadFrom` in the trace comes right after a `SetDeadline`
on the same connection. -/
def readsFollowDeadline : List Event → Bool
  | [] => true
  | Event.setDeadline rc _ :: Event.readFrom rc2 :: rest =>
    decide (rc = rc2) && readsFollowDeadline rest
  | Event.readFrom _ :: _ => false
  | _ :: rest => readsFollowDeadline rest

/-- The relay connections read from, in order. -/
def reads : List Event → List PacketConn
  | [] => []
  | Event.readFrom rc :: rest => rc :: reads rest
  | _ :: rest => reads rest

/-- A turn of the loop in which both the read and the write succeeded. -/
def FetchIter.ok (it : FetchIter) : Bool :=
  it.read.err.isNone && it.write.isNone

/-- The turns the loop goes through: those before the first read error or
write failure, and the turn of that first failure when there is one. -/
def consumed (iters : List FetchIter) : List FetchIter :=
  iters.takeWhile FetchIter.ok ++ (iters.dropWhile FetchIter.ok).head?.toList

/-! ## Concrete values used in the examples -/

/-- Dotted-decimal text of a four-byte address, other lengths print as a
question mark. -/
def exIPString : IP → String
  | [a, b, c, d] => Nat.repr a ++ "." ++ Nat.repr b ++ "." ++ Nat.repr c ++ "." ++ Nat.repr d
  | _ => "?"

/-- An environment for the examples. -/
def exEnv : Env := { ipString := exIPString, getProcessName := fun _ => "curl" }

/-- A fake-DNS table that knows `198.18.0.5` as `example.com`. -/
def exDns : FakeDns :=
  { IPToHost := fun ip => if ip = [198, 18, 0, 5] then ("example.com", true) else ("", false) }

/-- A flow of the examples. -/
def exConn : UDPConn := { id := 1, localNetwork := "udp", localAddr := "10.0.0.2:40000" }

/-- Another flow of the examples. -/
def exConn2 : UDPConn := { id := 2, localNetwork := "udp", localAddr := "10.0.0.2:40001" }

/-- The fake address `198.18.0.5:53`. -/
def exTarget : UDPAddr := { IP := [198, 18, 0, 5], Port := 53, Zone := "" }

/-- A relay socket of the examples. -/
def exSock : PacketConn := PacketConn.sock 7 "127.0.0.1:50000"

/-- A relay address of the examples. -/
def exRelay : Addr := { str := "127.0.0.1:1081" }

/-- A handler with fake DNS and a session stater. -/
def exHandler : udpHandler :=
  NewUDPHandler "127.0.0.1" 1080 30000000000 (some exDns) (some { id := 0 })

/-- A handler with neither fake DNS nor a session stater. -/
def exHandlerPlain : udpHandler := NewUDPHandler "127.0.0.1" 1080 30000000000 none none

/-- An i/o timeout as the net package reports it. -/
def exTimeoutErr : GoError := { text := "i/o timeout", netTimeout := some true }

/-- An error that is no timeout. -/
def exOtherErr : GoError := { text := "use of closed network connection", netTimeout := some false }

/-- A turn of the loop in which a three-byte datagram is read and written. -/
def exOkIter : FetchIter :=
  { now := 6, read := { n := 3, buf := [10, 20, 30, 0], err := none }, write := none }

/-- A turn of the loop in which the read times out. -/
def exTimeoutIter : FetchIter :=
  { now := 7, read := { n := 0, buf := [10, 20, 30, 0], err := some exTimeoutErr },
    write := none }

/-- A turn of the loop in which the read fails on the closed relay socket. -/
def exClosedIter : FetchIter :=
  { now := 7, read := { n := 0, buf := [0, 0, 0, 0], err := some exOtherErr }, write := none }

/-- The handler after `exConn` was connected to `exTarget`. -/
def exActive : udpHandler :=
  (Connect exEnv exHandler exConn (some exTarget) (Except.ok (exSock, exRelay)) 5).h

/-- The relay connection `Connect` stores for `exConn`: the socket wrapped
with its session. -/
def exStored : PacketConn :=
  PacketConn.sessionConn exSock
    { ProcessName := "curl", Network := "udp", DialerAddr := "127.0.0.1:50000",
      ClientAddr := "10.0.0.2:40000", TargetAddr := "example.com:53",
      UploadBytes := 0, DownloadBytes := 0, SessionStart := 5 }

/-- What follows a successful `Connect` of `exConn` in one run of the
program: a `ReceiveTo` whose write to the relay fails, then the goroutine of
the flow, whose pending read fails on the relay socket just closed. -/
def exAfterConnect : List Op :=
  [Op.receiveTo exConn [1, 2, 3] (some exTarget) (some exOtherErr),
   Op.fetch exConn exStored (some exTarget) [exClosedIter]]

/-! ## Facts about the map model -/

theorem SyncMap.Load_Delete_self {V : Type} (m : SyncMap V) (key : UDPConn) :
    SyncMap.Load (SyncMap.Delete m key) key = none := by
  induction m with
  | nil => rfl
  | cons e rest ih =>
    obtain ⟨k, v⟩ := e
    by_cases hk : k = key
    · simpa [SyncMap.Delete, List.filter, hk] using ih
    · simpa [SyncMap.Delete, List.filter, hk, SyncMap.Load] using ih

theorem SyncMap.Load_Delete_ne {V : Type} (m : SyncMap V) (key other : UDPConn)
    (hne : other ≠ key) :
    SyncMap.Load (SyncMap.Delete m key) other = SyncMap.Load m other := by
  induction m with
  | nil => rfl
  | cons e rest ih =>
    obtain ⟨k, v⟩ := e
    by_cases hk : k = key
    · subst hk
      have hko : ¬ k = other := fun h => hne h.symm
      simpa [SyncMap.Delete, List.filter, SyncMap.Load, hko] using ih
    · by_cases hko : k = other
      · subst hko
        simp [SyncMap.Delete, List.filter, hk, SyncMap.Load]
      · simpa [SyncMap.Delete, List.filter, hk, SyncMap.Load, hko] using ih

theorem SyncMap.Delete_Delete {V : Type} (m : SyncMap V) (key : UDPConn) :
    SyncMap.Delete (SyncMap.Delete m key) key = SyncMap.Delete m key := by
  simp [SyncMap.Delete, List.filter_filter]

theorem SyncMap.Load_Store_self {V : Type} (m : SyncMap V) (key : UDPConn) (v : V) :
    SyncMap.Load (SyncMap.Store m key v) key = some v := by
  simp [SyncMap.Store, SyncMap.Load]

theorem SyncMap.Load_Store_ne {V : Type} (m : SyncMap V) (key other : UDPConn) (v : V)
    (hne : other ≠ key) :
    SyncMap.Load (SyncMap.Store m key v) other = SyncMap.Load m other := by
  have hko : ¬ key = other := fun h => hne h.symm
  simp [SyncMap.Store, SyncMap.Load, hko, SyncMap.Load_Delete_ne m key other hne]

theorem SyncMap.Delete_ne_of_Load {V : Type} (m : SyncMap V) (key : UDPConn) (v : V)
    (hl : SyncMap.Load m key = some v) : SyncMap.Delete m key ≠ m := by
  intro heq
  have h0 := SyncMap.Load_Delete_self m key
  rw [heq, hl] at h0
  exact Option.noConfusion h0

/-! ## Facts about `JoinHostPort` -/

theorem len_eq_utf8Len (s : String) : len s = String.utf8Len s.data := by
  cases s; rfl

theorem len_append (a b : String) : len (a ++ b) = len a + len b := by
  simp [len_eq_utf8Len, String.data_append, String.utf8Len_append]

theorem len_colon : len ":" = 1 := by decide

theorem JoinHostPort_len_pos (host port : String) : 1 ≤ len (JoinHostPort host port) := by
  unfold JoinHostPort
  split
  · have h1 : len "[" = 1 := by decide
    simp only [len_append, h1]
    omega
  · simp only [len_append, len_colon]
    omega

/-! ## `Connect` -/

theorem Connect_some_eq (env : Env) (h : udpHandler) (conn : UDPConn) (t : UDPAddr)
    (dial : Except GoError (PacketConn × Addr)) (now : Time) :
    Connect env h conn (some t) dial now =
      match dial with
      | Except.error e =>
        { h := h, err := some e,
          events := [Event.dialUDP (JoinHostPort h.proxyHost (Itoa h.proxyPort))
                       (JoinHostPort (targetHost env h t) (Itoa t.Port)),
                     Event.logWarn ("DialUDP " ++ JoinHostPort h.proxyHost (Itoa h.proxyPort)
                       ++ " error: " ++ e.text)] }
      | Except.ok (remoteConn0, remoteAddr) =>
        let sess : Session :=
          { ProcessName := env.getProcessName conn.localAddr, Network := conn.localNetwork,
            DialerAddr := PacketConn.localAddr remoteConn0,
            ClientAddr := conn.localAddr,
            TargetAddr := JoinHostPort (targetHost env h t) (Itoa t.Port),
            UploadBytes := 0, DownloadBytes := 0, SessionStart := now }
        let remoteConn :=
          match h.sessionStater with
          | some _ => PacketConn.sessionConn remoteConn0 sess
          | none => remoteConn0
        { h := { h with remoteAddrMap := SyncMap.Store h.remoteAddrMap conn remoteAddr,
                        remoteConnMap := SyncMap.Store h.remoteConnMap conn remoteConn },
          err := none,
          events := [Event.dialUDP (JoinHostPort h.proxyHost (Itoa h.proxyPort))
                       (JoinHostPort (targetHost env h t) (Itoa t.Port))] ++
            (match h.sessionStater with
             | some _ => [Event.addSession conn sess]
             | none => []) ++
            [Event.goFetchUDPInput conn remoteConn (some t),
             Event.logAccess (env.getProcessName conn.localAddr) "proxy" "udp" conn.localAddr
               (JoinHostPort (targetHost env h t) (Itoa t.Port))] } := by
  have hpos := JoinHostPort_len_pos (targetHost env h t) (Itoa t.Port)
  have hne : ¬ len (JoinHostPort (targetHost env h t) (Itoa t.Port)) = 0 := by omega
  unfold Connect
  simp only [hne, if_false]
  cases dial with
  | error e => rfl
  | ok p =>
    obtain ⟨rc, ra⟩ := p
    cases hs : h.sessionStater <;> simp [hs]

theorem Connect_dialTargets (env : Env) (h : udpHandler) (conn : UDPConn) (t : UDPAddr)
    (dial : Except GoError (PacketConn × Addr)) (now : Time) :
    dialTargets (Connect env h conn (some t) dial now).events =
      [JoinHostPort (targetHost env h t) (Itoa t.Port)] := by
  rw [Connect_some_eq]
  cases dial with
  | error e => rfl
  | ok p =>
    obtain ⟨rc, ra⟩ := p
    cases hs : h.sessionStater <;> simp [dialTargets]

/-- C1: for a non-nil target the one address `Connect` hands to the SOCKS5
UDP dial is `JoinHostPort(host, port)` when a fake-DNS resolver is configured
and `IPToHost(IP)` answers `(host, true)`, and `JoinHostPort(IP.String(), port)`
when the resolver is absent or answers `exists = false`; the port is the
target's own port in every case. -/
theorem Connect_fake_ip_translation (env : Env) (h : udpHandler) (conn : UDPConn)
    (t : UDPAddr) (dial : Except GoError (PacketConn × Addr)) (now : Time) :
    (∀ dns host, h.fakeDns = some dns → dns.IPToHost t.IP = (host, true) →
      dialTargets (Connect env h conn (some t) dial now).events =
        [JoinHostPort host (Itoa t.Port)]) ∧
    (∀ dns host, h.fakeDns = some dns → dns.IPToHost t.IP = (host, false) →
      dialTargets (Connect env h conn (some t) dial now).events =
        [JoinHostPort (env.ipString t.IP) (Itoa t.Port)]) ∧
    (h.fakeDns = none →
      dialTargets (Connect env h conn (some t) dial now).events =
        [JoinHostPort (env.ipString t.IP) (Itoa t.Port)]) := by
  refine ⟨?_, ?_, ?_⟩
  · intro dns host hd hr
    rw [Connect_dialTargets]
    simp [targetHost, hd, hr]
  · intro dns host hd hr
    rw [Connect_dialTargets]
    simp [targetHost, hd, hr]
  · intro hd
    rw [Connect_dialTargets]
    simp [targetHost, hd]

/-- C1 at the fake address `198.18.0.5:53`, known to the resolver as
`example.com`: the dial goes to `example.com:53`. -/
theorem Connect_fake_ip_translation_witness :
    exHandler.fakeDns = some exDns ∧
    exDns.IPToHost exTarget.IP = ("example.com", true) ∧
    dialTargets (Connect exEnv exHandler exConn (some exTarget)
      (Except.ok (exSock, exRelay)) 5).events = ["example.com:53"] :=
  ⟨rfl, rfl,
   (Connect_fake_ip_translation exEnv exHandler exConn exTarget
      (Except.ok (exSock, exRelay)) 5).1 exDns "example.com" rfl rfl⟩

/-- C2: `Connect(conn, nil)` returns an error and does nothing else than log
a warning: the handler state, and with it both index maps, is unchanged, no
dial is attempted, `AddSession` is not called and no goroutine is started. -/
theorem Connect_nil_target (env : Env) (h : udpHandler) (conn : UDPConn)
    (dial : Except GoError (PacketConn × Addr)) (now : Time) :
    (Connect env h conn none dial now).err = some ⟨"UDP target is invalid", none⟩ ∧
    (Connect env h conn none dial now).h = h ∧
    (Connect env h conn none dial now).h.remoteAddrMap = h.remoteAddrMap ∧
    (Connect env h conn none dial now).h.remoteConnMap = h.remoteConnMap ∧
    (Connect env h conn none dial now).events =
      [Event.logWarn ("UDP target is invalid: " ++ conn.localAddr)] ∧
    dialTargets (Connect env h conn none dial now).events = [] ∧
    (∀ c, countAddSession c (Connect env h conn none dial now).events = 0) ∧
    goroutines (Connect env h conn none dial now).events = [] :=
  ⟨rfl, rfl, rfl, rfl, rfl, rfl, fun _ => rfl, rfl⟩

/-- C10: the target address `Connect` computes is never empty, whatever the
fake-DNS resolver answers, so the branch returning "target address is empty"
is never taken: `Connect` on a non-nil target always reaches the dial, and
returns nil or the dial's own error. -/
theorem Connect_target_never_empty (env : Env) (h : udpHandler) (conn : UDPConn)
    (t : UDPAddr) (dial : Except GoError (PacketConn × Addr)) (now : Time) :
    (∀ host port, 1 ≤ len (JoinHostPort host port)) ∧
    1 ≤ len (JoinHostPort (targetHost env h t) (Itoa t.Port)) ∧
    dialTargets (Connect env h conn (some t) dial now).events =
      [JoinHostPort (targetHost env h t) (Itoa t.Port)] ∧
    (Connect env h conn (some t) dial now).err =
      (match dial with
       | Except.error e => some e
       | Except.ok _ => none) := by
  refine ⟨JoinHostPort_len_pos, JoinHostPort_len_pos _ _, Connect_dialTargets _ _ _ _ _ _, ?_⟩
  rw [Connect_some_eq]
  cases dial with
  | error e => rfl
  | ok p => rfl

/-! ## `Close` -/

theorem Close_remoteAddrMap (h : udpHandler) (conn : UDPConn) :
    (Close h conn).h.remoteAddrMap = SyncMap.Delete h.remoteAddrMap conn := by
  unfold Close
  cases SyncMap.Load h.remoteConnMap conn <;> rfl

theorem Close_remoteConnMap_Load (h : udpHandler) (conn other : UDPConn) :
    SyncMap.Load (Close h conn).h.remoteConnMap other =
      if other = conn then none else SyncMap.Load h.remoteConnMap other := by
  unfold Close
  cases hl : SyncMap.Load h.remoteConnMap conn with
  | none =>
    by_cases ho : other = conn
    · subst ho; simp [hl]
    · simp [ho]
  | some rc =>
    by_cases ho : other = conn
    · subst ho; simp [SyncMap.Load_Delete_self]
    · simp [ho, SyncMap.Load_Delete_ne _ _ _ ho]

theorem Close_remoteAddrMap_Load (h : udpHandler) (conn other : UDPConn) :
    SyncMap.Load (Close h conn).h.remoteAddrMap other =
      if other = conn then none else SyncMap.Load h.remoteAddrMap other := by
  rw [Close_remoteAddrMap]
  by_cases ho : other = conn
  · subst ho; simp [SyncMap.Load_Delete_self]
  · simp [ho, SyncMap.Load_Delete_ne _ _ _ ho]

theorem Close_events (h : udpHandler) (conn : UDPConn) :
    (Close h conn).events =
      Event.connClose conn ::
        ((SyncMap.Load h.remoteConnMap conn).toList.map Event.remoteClose ++
          (h.sessionStater.toList.map (fun _ => Event.removeSession conn))) := by
  unfold Close
  cases SyncMap.Load h.remoteConnMap conn <;> cases h.sessionStater <;> rfl

theorem Close_config (h : udpHandler) (conn : UDPConn) :
    (Close h conn).h.sessionStater = h.sessionStater ∧
    (Close h conn).h.fakeDns = h.fakeDns ∧
    (Close h conn).h.timeout = h.timeout ∧
    (Close h conn).h.proxyHost = h.proxyHost ∧
    (Close h conn).h.proxyPort = h.proxyPort := by
  unfold Close
  cases SyncMap.Load h.remoteConnMap conn <;> exact ⟨rfl, rfl, rfl, rfl, rfl⟩

theorem Close_remoteCloses (h : udpHandler) (conn : UDPConn) :
    remoteCloses (Close h conn).events = (SyncMap.Load h.remoteConnMap conn).toList := by
  rw [Close_events]
  cases SyncMap.Load h.remoteConnMap conn <;> cases h.sessionStater <;> rfl

/-- C5: `Close(conn)` is an idempotent teardown of one flow. After it neither
index map has an entry for `conn`, the entries of every other flow read as
before, the relay connection stored for `conn` is closed once (and nothing is
closed when none is stored); a second `Close(conn)` leaves both maps as the
first call left them and closes no relay connection. -/
theorem Close_idempotent_flow_local (h : udpHandler) (conn : UDPConn) :
    SyncMap.Load (Close h conn).h.remoteAddrMap conn = none ∧
    SyncMap.Load (Close h conn).h.remoteConnMap conn = none ∧
    (∀ other, other ≠ conn →
      SyncMap.Load (Close h conn).h.remoteAddrMap other = SyncMap.Load h.remoteAddrMap other ∧
      SyncMap.Load (Close h conn).h.remoteConnMap other = SyncMap.Load h.remoteConnMap other) ∧
    remoteCloses (Close h conn).events = (SyncMap.Load h.remoteConnMap conn).toList ∧
    (Close (Close h conn).h conn).h.remoteAddrMap = (Close h conn).h.remoteAddrMap ∧
    (Close (Close h conn).h conn).h.remoteConnMap = (Close h conn).h.remoteConnMap ∧
    remoteCloses (Close (Close h conn).h conn).events = [] := by
  have hc : SyncMap.Load (Close h conn).h.remoteConnMap conn = none := by
    rw [Close_remoteConnMap_Load]; simp
  refine ⟨?_, hc, ?_, Close_remoteCloses h conn, ?_, ?_, ?_⟩
  · rw [Close_remoteAddrMap_Load]; simp
  · intro other ho
    rw [Close_remoteAddrMap_Load, Close_remoteConnMap_Load]
    simp [ho]
  · rw [Close_remoteAddrMap, Close_remoteAddrMap, SyncMap.Delete_Delete]
  · generalize Close h conn = c at hc
    unfold Close
    simp [hc]
  · rw [Close_remoteCloses, hc]; rfl

/-- C5 on a handler holding one flow: closing `exConn` leaves the entries of
another flow `exConn2` as they were. -/
theorem Close_idempotent_flow_local_witness :
    exConn2 ≠ exConn ∧
    SyncMap.Load (Close (Connect exEnv exHandler exConn (some exTarget)
        (Except.ok (exSock, exRelay)) 5).h exConn).h.remoteAddrMap exConn2 =
      SyncMap.Load (Connect exEnv exHandler exConn (some exTarget)
        (Except.ok (exSock, exRelay)) 5).h.remoteAddrMap exConn2 :=
  ⟨by decide,
   ((Close_idempotent_flow_local (Connect exEnv exHandler exConn (some exTarget)
      (Except.ok (exSock, exRelay)) 5).h exConn).2.2.1 exConn2 (by decide)).1⟩

/-! ## `ReceiveTo` -/

theorem ReceiveTo_missing (env : Env) (h : udpHandler) (conn : UDPConn) (data : Bytes)
    (addr : Option UDPAddr) (w : Option GoError)
    (hmiss : SyncMap.Load h.remoteAddrMap conn = none ∨
      SyncMap.Load h.remoteConnMap conn = none) :
    ReceiveTo env h conn data addr w =
      { h := (Close h conn).h,
        err := some ⟨"proxy connection " ++ conn.localAddr ++ "->" ++ UDPAddr.String env addr
                      ++ " does not exists", none⟩,
        events := (Close h conn).events } := by
  unfold ReceiveTo
  rcases hmiss with hm | hm
  · rw [hm]
  · rw [hm]
    cases SyncMap.Load h.remoteAddrMap conn <;> rfl

theorem ReceiveTo_present (env : Env) (h : udpHandler) (conn : UDPConn) (data : Bytes)
    (addr : Option UDPAddr) (w : Option GoError) (remoteAddr : Addr) (remoteConn : PacketConn)
    (ha : SyncMap.Load h.remoteAddrMap conn = some remoteAddr)
    (hc : SyncMap.Load h.remoteConnMap conn = some remoteConn) :
    ReceiveTo env h conn data addr w =
      match w with
      | some e =>
        { h := (Close h conn).h, err := some ⟨"write remote failed: " ++ e.text, none⟩,
          events := Event.writeTo remoteConn data remoteAddr :: (Close h conn).events }
      | none =>
        { h := h, err := none, events := [Event.writeTo remoteConn data remoteAddr] } := by
  unfold ReceiveTo
  rw [ha, hc]

theorem Close_writeToCalls (h : udpHandler) (conn : UDPConn) :
    writeToCalls (Close h conn).events = [] := by
  rw [Close_events]
  cases SyncMap.Load h.remoteConnMap conn <;> cases h.sessionStater <;> rfl

theorem Close_countAddSession (h : udpHandler) (conn c : UDPConn) :
    countAddSession c (Close h conn).events = 0 := by
  rw [Close_events]
  cases SyncMap.Load h.remoteConnMap conn <;> cases h.sessionStater <;> rfl

/-- C3: on a flow that lacks an entry in `remoteAddrMap` or in
`remoteConnMap`, `ReceiveTo` returns a non-nil error whatever the data and
address, writes to no relay connection, never calls `AddSession`, closes the
flow and leaves no entry for it in either map. -/
theorem ReceiveTo_unknown_flow (env : Env) (h : udpHandler) (conn : UDPConn) (data : Bytes)
    (addr : Option UDPAddr) (w : Option GoError)
    (hmiss : SyncMap.Load h.remoteAddrMap conn = none ∨
      SyncMap.Load h.remoteConnMap conn = none) :
    (ReceiveTo env h conn data addr w).err ≠ none ∧
    writeToCalls (ReceiveTo env h conn data addr w).events = [] ∧
    (∀ c, countAddSession c (ReceiveTo env h conn data addr w).events = 0) ∧
    Event.connClose conn ∈ (ReceiveTo env h conn data addr w).events ∧
    SyncMap.Load (ReceiveTo env h conn data addr w).h.remoteAddrMap conn = none ∧
    SyncMap.Load (ReceiveTo env h conn data addr w).h.remoteConnMap conn = none := by
  rw [ReceiveTo_missing env h conn data addr w hmiss]
  refine ⟨by simp, Close_writeToCalls h conn, fun c => Close_countAddSession h conn c, ?_, ?_, ?_⟩
  · simp [Close_events]
  · simp [Close_remoteAddrMap_Load]
  · simp [Close_remoteConnMap_Load]

/-- C3 on a fresh handler, where no flow was ever connected. -/
theorem ReceiveTo_unknown_flow_witness :
    (ReceiveTo exEnv exHandler exConn [1, 2, 3] (some exTarget) none).err ≠ none ∧
    writeToCalls (ReceiveTo exEnv exHandler exConn [1, 2, 3] (some exTarget) none).events = [] ∧
    (∀ c, countAddSession c
      (ReceiveTo exEnv exHandler exConn [1, 2, 3] (some exTarget) none).events = 0) ∧
    Event.connClose exConn ∈
      (ReceiveTo exEnv exHandler exConn [1, 2, 3] (some exTarget) none).events ∧
    SyncMap.Load
      (ReceiveTo exEnv exHandler exConn [1, 2, 3] (some exTarget) none).h.remoteAddrMap
      exConn = none ∧
    SyncMap.Load
      (ReceiveTo exEnv exHandler exConn [1, 2, 3] (some exTarget) none).h.remoteConnMap
      exConn = none :=
  ReceiveTo_unknown_flow exEnv exHandler exConn [1, 2, 3] (some exTarget) none (Or.inl rfl)

/-- C9: on a flow with entries in both index maps, `ReceiveTo` makes exactly
one `WriteTo`, of the data as given, to the stored relay address over the
stored relay connection. It returns nil exactly when that write succeeds, and
exactly then both maps are left unchanged. When the write fails with `e` it
runs `Close` (so the flow has no entry in either map) and returns the error
"write remote failed: " followed by the text of `e`. -/
theorem ReceiveTo_forward (env : Env) (h : udpHandler) (conn : UDPConn) (data : Bytes)
    (addr : Option UDPAddr) (w : Option GoError) (remoteAddr : Addr) (remoteConn : PacketConn)
    (ha : SyncMap.Load h.remoteAddrMap conn = some remoteAddr)
    (hc : SyncMap.Load h.remoteConnMap conn = some remoteConn) :
    writeToCalls (ReceiveTo env h conn data addr w).events = [(remoteConn, data, remoteAddr)] ∧
    ((ReceiveTo env h conn data addr w).err = none ↔ w = none) ∧
    (((ReceiveTo env h conn data addr w).h.remoteAddrMap = h.remoteAddrMap ∧
      (ReceiveTo env h conn data addr w).h.remoteConnMap = h.remoteConnMap) ↔ w = none) ∧
    (∀ e, w = some e →
      (ReceiveTo env h conn data addr w).err = some ⟨"write remote failed: " ++ e.text, none⟩ ∧
      (ReceiveTo env h conn data addr w).h = (Close h conn).h ∧
      (ReceiveTo env h conn data addr w).events =
        Event.writeTo remoteConn data remoteAddr :: (Close h conn).events ∧
      SyncMap.Load (ReceiveTo env h conn data addr w).h.remoteAddrMap conn = none ∧
      SyncMap.Load (ReceiveTo env h conn data addr w).h.remoteConnMap conn = none) := by
  rw [ReceiveTo_present env h conn data addr w remoteAddr remoteConn ha hc]
  cases w with
  | none => simp [writeToCalls]
  | some e =>
    refine ⟨?_, by simp, ?_, ?_⟩
    · have hcl := Close_writeToCalls h conn
      show (remoteConn, data, remoteAddr) :: writeToCalls (Close h conn).events = _
      rw [hcl]
    · simp only [Close_remoteAddrMap]
      constructor
      · intro hh
        exact absurd hh.1 (SyncMap.Delete_ne_of_Load _ _ _ ha)
      · intro hh
        exact Option.noConfusion hh
    · intro e2 he
      cases he
      refine ⟨rfl, rfl, rfl, ?_, ?_⟩
      · simp [Close_remoteAddrMap_Load]
      · simp [Close_remoteConnMap_Load]

/-! ## Reading a trace made of two parts -/

theorem writeFromCalls_append (a b : List Event) :
    writeFromCalls (a ++ b) = writeFromCalls a ++ writeFromCalls b := by
  induction a with
  | nil => rfl
  | cons e rest ih => cases e <;> simp [writeFromCalls, ih]

theorem warnings_append (a b : List Event) :
    warnings (a ++ b) = warnings a ++ warnings b := by
  induction a with
  | nil => rfl
  | cons e rest ih => cases e <;> simp [warnings, ih]

theorem deadlines_append (a b : List Event) :
    deadlines (a ++ b) = deadlines a ++ deadlines b := by
  induction a with
  | nil => rfl
  | cons e rest ih => cases e <;> simp [deadlines, ih]

theorem reads_append (a b : List Event) :
    reads (a ++ b) = reads a ++ reads b := by
  induction a with
  | nil => rfl
  | cons e rest ih => cases e <;> simp [reads, ih]

theorem Close_trace (h : udpHandler) (conn : UDPConn) :
    writeFromCalls (Close h conn).events = [] ∧ warnings (Close h conn).events = [] ∧
    deadlines (Close h conn).events = [] ∧ reads (Close h conn).events = [] ∧
    countConnClose conn (Close h conn).events = 1 := by
  rw [Close_events]
  cases SyncMap.Load h.remoteConnMap conn <;> cases h.sessionStater <;>
    simp [writeFromCalls, warnings, deadlines, reads, countConnClose]

/-! ## `fetchUDPInput` -/

theorem fetchLoop_cons_ok (h : udpHandler) (conn : UDPConn) (input : PacketConn)
    (addr : Option UDPAddr) (it : FetchIter) (rest : List FetchIter)
    (h1 : it.read.err = none) (h2 : it.write = none) :
    fetchLoop h conn input addr (it :: rest) =
      (Event.setDeadline input (it.now + h.timeout) :: Event.readFrom input ::
        Event.writeFrom conn (it.read.buf.take it.read.n) addr ::
          (fetchLoop h conn input addr rest).1,
       (fetchLoop h conn input addr rest).2) := by
  simp [fetchLoop, h1, h2]

theorem fetchLoop_append_ok (h : udpHandler) (conn : UDPConn) (input : PacketConn)
    (addr : Option UDPAddr) (pre rest : List FetchIter)
    (hpre : ∀ x ∈ pre, FetchIter.ok x = true) :
    fetchLoop h conn input addr (pre ++ rest) =
      ((fetchLoop h conn input addr pre).1 ++ (fetchLoop h conn input addr rest).1,
       (fetchLoop h conn input addr rest).2) ∧
    (fetchLoop h conn input addr pre).2 = false := by
  induction pre with
  | nil => simp [fetchLoop]
  | cons it pre ih =>
    have hit := hpre it (List.mem_cons_self _ _)
    have ih2 := ih (fun x hx => hpre x (List.mem_cons_of_mem _ hx))
    simp only [FetchIter.ok, Bool.and_eq_true, Option.isNone_iff_eq_none] at hit
    rw [List.cons_append, fetchLoop_cons_ok _ _ _ _ _ _ hit.1 hit.2,
      fetchLoop_cons_ok _ _ _ _ _ _ hit.1 hit.2, ih2.1]
    simp [ih2.2]

theorem fetchLoop_ok_trace (h : udpHandler) (conn : UDPConn) (input : PacketConn)
    (addr : Option UDPAddr) (pre : List FetchIter)
    (hpre : ∀ x ∈ pre, FetchIter.ok x = true) :
    writeFromCalls (fetchLoop h conn input addr pre).1 =
      pre.map (fun it => (conn, it.read.buf.take it.read.n, addr)) ∧
    warnings (fetchLoop h conn input addr pre).1 = [] ∧
    deadlines (fetchLoop h conn input addr pre).1 =
      pre.map (fun it => (input, it.now + h.timeout)) ∧
    reads (fetchLoop h conn input addr pre).1 = pre.map (fun _ => input) ∧
    countConnClose conn (fetchLoop h conn input addr pre).1 = 0 := by
  induction pre with
  | nil => simp [fetchLoop, writeFromCalls, warnings, deadlines, reads, countConnClose]
  | cons it pre ih =>
    have hit := hpre it (List.mem_cons_self _ _)
    have ih2 := ih (fun x hx => hpre x (List.mem_cons_of_mem _ hx))
    simp only [FetchIter.ok, Bool.and_eq_true, Option.isNone_iff_eq_none] at hit
    obtain ⟨i1, i2, i3, i4, i5⟩ := ih2
    simp only [countConnClose] at i5
    rw [fetchLoop_cons_ok _ _ _ _ _ _ hit.1 hit.2]
    simp [writeFromCalls, warnings, deadlines, reads, countConnClose, i1, i2, i3, i4, i5]

theorem takeWhile_ok (iters : List FetchIter) :
    ∀ x ∈ iters.takeWhile FetchIter.ok, FetchIter.ok x = true :=
  fun _ hx => List.mem_takeWhile_imp hx

theorem fetchLoop_stop (h : udpHandler) (conn : UDPConn) (input : PacketConn)
    (addr : Option UDPAddr) (it : FetchIter) (rest : List FetchIter)
    (hit : FetchIter.ok it = false) :
    fetchLoop h conn input addr (it :: rest) = ((fetchLoop h conn input addr [it]).1, true) := by
  cases hr : it.read.err with
  | some e =>
    cases hn : e.netTimeout with
    | none => simp [fetchLoop, hr, hn]
    | some b => cases b <;> simp [fetchLoop, hr, hn]
  | none =>
    cases hw : it.write with
    | some e => simp [fetchLoop, hr, hw]
    | none => simp [FetchIter.ok, hr, hw] at hit

theorem fetchUDPInput_running (h : udpHandler) (conn : UDPConn) (input : PacketConn)
    (addr : Option UDPAddr) (pre : List FetchIter)
    (hpre : ∀ x ∈ pre, FetchIter.ok x = true) :
    fetchUDPInput h conn input addr pre =
      { h := h, returned := false,
        events := Event.bufGet :: (fetchLoop h conn input addr pre).1 } := by
  have h2 := (fetchLoop_append_ok h conn input addr pre [] hpre).2
  unfold fetchUDPInput
  generalize fetchLoop h conn input addr pre = r at h2
  obtain ⟨evs, b⟩ := r
  simp only at h2
  subst h2
  rfl

theorem fetchUDPInput_stop (h : udpHandler) (conn : UDPConn) (input : PacketConn)
    (addr : Option UDPAddr) (pre : List FetchIter) (it : FetchIter) (rest : List FetchIter)
    (hpre : ∀ x ∈ pre, FetchIter.ok x = true) (hit : FetchIter.ok it = false) :
    fetchUDPInput h conn input addr (pre ++ it :: rest) =
      { h := (Close h conn).h, returned := true,
        events := Event.bufGet :: ((fetchLoop h conn input addr pre).1 ++
          (fetchLoop h conn input addr [it]).1) ++ (Close h conn).events ++ [Event.bufPut] } := by
  unfold fetchUDPInput
  rw [(fetchLoop_append_ok h conn input addr pre (it :: rest) hpre).1,
    fetchLoop_stop h conn input addr it rest hit]

theorem dropWhile_head_not_ok (iters : List FetchIter) (it : FetchIter)
    (rest : List FetchIter) (hd : iters.dropWhile FetchIter.ok = it :: rest) :
    FetchIter.ok it = false := by
  have hh := List.head_dropWhile_not FetchIter.ok iters (by simp [hd])
  simpa [hd] using hh

theorem fetchUDPInput_split (h : udpHandler) (conn : UDPConn) (input : PacketConn)
    (addr : Option UDPAddr) (iters : List FetchIter) :
    fetchUDPInput h conn input addr iters =
      match iters.dropWhile FetchIter.ok with
      | [] =>
        { h := h, returned := false,
          events := Event.bufGet ::
            (fetchLoop h conn input addr (iters.takeWhile FetchIter.ok)).1 }
      | it :: _ =>
        { h := (Close h conn).h, returned := true,
          events := Event.bufGet ::
            ((fetchLoop h conn input addr (iters.takeWhile FetchIter.ok)).1 ++
              (fetchLoop h conn input addr [it]).1) ++ (Close h conn).events ++
              [Event.bufPut] } := by
  have hsplit := List.takeWhile_append_dropWhile FetchIter.ok iters
  cases hd : iters.dropWhile FetchIter.ok with
  | nil =>
    rw [hd, List.append_nil] at hsplit
    simp only
    conv_lhs => rw [← hsplit]
    exact fetchUDPInput_running h conn input addr _ (takeWhile_ok iters)
  | cons it rest =>
    rw [hd] at hsplit
    simp only
    conv_lhs => rw [← hsplit]
    exact fetchUDPInput_stop h conn input addr _ it rest (takeWhile_ok iters)
      (dropWhile_head_not_ok iters it rest hd)

theorem fetchLoop_single_trace (h : udpHandler) (conn : UDPConn) (input : PacketConn)
    (addr : Option UDPAddr) (it : FetchIter) (hit : FetchIter.ok it = false) :
    writeFromCalls (fetchLoop h conn input addr [it]).1 =
      (if it.read.err = none then [(conn, it.read.buf.take it.read.n, addr)] else []) ∧
    deadlines (fetchLoop h conn input addr [it]).1 = [(input, it.now + h.timeout)] ∧
    reads (fetchLoop h conn input addr [it]).1 = [input] ∧
    countConnClose conn (fetchLoop h conn input addr [it]).1 = 0 := by
  cases hr : it.read.err with
  | some e =>
    cases hn : e.netTimeout with
    | none => simp [fetchLoop, hr, hn, writeFromCalls, deadlines, reads, countConnClose]
    | some b =>
      cases b <;> simp [fetchLoop, hr, hn, writeFromCalls, deadlines, reads, countConnClose]
  | none =>
    cases hw : it.write with
    | some e => simp [fetchLoop, hr, hw, writeFromCalls, deadlines, reads, countConnClose]
    | none => simp [FetchIter.ok, hr, hw] at hit

/-- C7: whatever the relay socket answers, the `WriteFrom` calls of
`fetchUDPInput` are, in reading order, the payloads `buf[:n]` of the turns in
which read and write both succeeded, that is of the successful reads before
the first read error or write failure, followed only, when the loop ends on a
write failure, by the one call that failed, made with the payload just read.
Every call is on the flow of the goroutine and carries the address the
goroutine was started with, and `Connect` starts the goroutine with the
stored relay connection and its own target. -/
theorem fetchUDPInput_relay (h : udpHandler) (conn : UDPConn) (input : PacketConn)
    (addr : Option UDPAddr) (iters : List FetchIter) :
    writeFromCalls (fetchUDPInput h conn input addr iters).events =
      (iters.takeWhile FetchIter.ok).map (fun it => (conn, it.read.buf.take it.read.n, addr)) ++
      (match (iters.dropWhile FetchIter.ok).head? with
       | some it =>
         if it.read.err = none then [(conn, it.read.buf.take it.read.n, addr)] else []
       | none => []) ∧
    writeFromCalls (fetchUDPInput h conn input addr iters).events =
      ((consumed iters).filter (fun it => it.read.err.isNone)).map
        (fun it => (conn, it.read.buf.take it.read.n, addr)) ∧
    (∀ (env : Env) (t : UDPAddr) (rc : PacketConn) (ra : Addr) (now : Time),
      ∃ stored,
        SyncMap.Load (Connect env h conn (some t) (Except.ok (rc, ra)) now).h.remoteConnMap conn
          = some stored ∧
        goroutines (Connect env h conn (some t) (Except.ok (rc, ra)) now).events =
          [(conn, stored, some t)]) := by
  have hok := fetchLoop_ok_trace h conn input addr (iters.takeWhile FetchIter.ok)
    (takeWhile_ok iters)
  have hfirst : writeFromCalls (fetchUDPInput h conn input addr iters).events =
      (iters.takeWhile FetchIter.ok).map (fun it => (conn, it.read.buf.take it.read.n, addr)) ++
      (match (iters.dropWhile FetchIter.ok).head? with
       | some it =>
         if it.read.err = none then [(conn, it.read.buf.take it.read.n, addr)] else []
       | none => []) := by
    rw [fetchUDPInput_split]
    cases hd : iters.dropWhile FetchIter.ok with
    | nil => simp [writeFromCalls, hok.1]
    | cons it rest =>
      have hs := fetchLoop_single_trace h conn input addr it
        (dropWhile_head_not_ok iters it rest hd)
      have hc := (Close_trace h conn).1
      generalize (Close h conn).events = ce at hc
      simp [writeFromCalls, writeFromCalls_append, hok.1, hs.1, hc]
  refine ⟨hfirst, ?_, ?_⟩
  · rw [hfirst]
    have hall : (iters.takeWhile FetchIter.ok).filter (fun it => it.read.err.isNone) =
        iters.takeWhile FetchIter.ok := by
      apply List.filter_eq_self.mpr
      intro x hx
      have := takeWhile_ok iters x hx
      simp only [FetchIter.ok, Bool.and_eq_true] at this
      exact this.1
    unfold consumed
    rw [List.filter_append, hall, List.map_append]
    cases (iters.dropWhile FetchIter.ok).head? with
    | none => simp
    | some it =>
      cases hr : it.read.err <;> simp [hr]
  · intro env t rc ra now
    rw [Connect_some_eq]
    cases hs : h.sessionStater <;> simp [SyncMap.Load_Store_self, goroutines]

theorem readsFollowDeadline_bufGet (evs : List Event) :
    readsFollowDeadline (Event.bufGet :: evs) = readsFollowDeadline evs := rfl

theorem readsFollowDeadline_ok (h : udpHandler) (conn : UDPConn) (input : PacketConn)
    (addr : Option UDPAddr) (pre : List FetchIter) (tail : List Event)
    (hpre : ∀ x ∈ pre, FetchIter.ok x = true) :
    readsFollowDeadline ((fetchLoop h conn input addr pre).1 ++ tail) =
      readsFollowDeadline tail := by
  induction pre with
  | nil => simp [fetchLoop]
  | cons it pre ih =>
    have hit := hpre it (List.mem_cons_self _ _)
    have ih2 := ih (fun x hx => hpre x (List.mem_cons_of_mem _ hx))
    simp only [FetchIter.ok, Bool.and_eq_true, Option.isNone_iff_eq_none] at hit
    rw [fetchLoop_cons_ok _ _ _ _ _ _ hit.1 hit.2]
    simp only [List.cons_append, readsFollowDeadline, decide_True, Bool.true_and]
    exact ih2

theorem readsFollowDeadline_Close (h : udpHandler) (conn : UDPConn) :
    readsFollowDeadline ((Close h conn).events ++ [Event.bufPut]) = true := by
  rw [Close_events]
  cases SyncMap.Load h.remoteConnMap conn <;> cases h.sessionStater <;> rfl

theorem readsFollowDeadline_single (h : udpHandler) (conn : UDPConn) (input : PacketConn)
    (addr : Option UDPAddr) (it : FetchIter) (tail : List Event)
    (hit : FetchIter.ok it = false) :
    readsFollowDeadline ((fetchLoop h conn input addr [it]).1 ++ tail) =
      readsFollowDeadline tail := by
  cases hr : it.read.err with
  | some e =>
    cases hn : e.netTimeout with
    | none => simp [fetchLoop, hr, hn, readsFollowDeadline]
    | some b => cases b <;> simp [fetchLoop, hr, hn, readsFollowDeadline]
  | none =>
    cases hw : it.write with
    | some e => simp [fetchLoop, hr, hw, readsFollowDeadline]
    | none => simp [FetchIter.ok, hr, hw] at hit

theorem fetchUDPInput_deadlines (h : udpHandler) (conn : UDPConn) (input : PacketConn)
    (addr : Option UDPAddr) (iters : List FetchIter) :
    readsFollowDeadline (fetchUDPInput h conn input addr iters).events = true ∧
    deadlines (fetchUDPInput h conn input addr iters).events =
      (consumed iters).map (fun x => (input, x.now + h.timeout)) ∧
    reads (fetchUDPInput h conn input addr iters).events =
      (consumed iters).map (fun _ => input) := by
  have hok := fetchLoop_ok_trace h conn input addr (iters.takeWhile FetchIter.ok)
    (takeWhile_ok iters)
  rw [fetchUDPInput_split]
  unfold consumed
  cases hd : iters.dropWhile FetchIter.ok with
  | nil =>
    refine ⟨?_, ?_, ?_⟩
    · have := readsFollowDeadline_ok h conn input addr (iters.takeWhile FetchIter.ok) []
        (takeWhile_ok iters)
      simpa [readsFollowDeadline] using this
    · simp [deadlines, hok.2.2.1]
    · simp [reads, hok.2.2.2.1]
  | cons it rest =>
    have hnot := dropWhile_head_not_ok iters it rest hd
    have hs := fetchLoop_single_trace h conn input addr it hnot
    obtain ⟨_, _, c3, c4, _⟩ := Close_trace h conn
    have hrc := readsFollowDeadline_Close h conn
    refine ⟨?_, ?_, ?_⟩
    · show readsFollowDeadline (Event.bufGet :: (_ ++ _ ++ _ ++ _)) = true
      rw [readsFollowDeadline_bufGet, List.append_assoc, List.append_assoc,
        readsFollowDeadline_ok _ _ _ _ _ _ (takeWhile_ok iters),
        readsFollowDeadline_single _ _ _ _ _ _ hnot]
      exact hrc
    · generalize (Close h conn).events = ce at c3
      simp [deadlines, deadlines_append, hok.2.2.1, hs.2.1, c3]
    · generalize (Close h conn).events = ce at c4
      simp [reads, reads_append, hok.2.2.2.1, hs.2.2.1, c4]

/-- C8: in `fetchUDPInput` every read comes right after a `SetDeadline` on the
same connection, and the deadlines are the clock readings of the successive
turns plus the configured timeout. After any number of turns whose read and
write succeed: a read failing with a timeout error ends the loop, `Close(conn)`
runs and no warning is logged; a read failing with any other error ends the
loop, `Close(conn)` runs and the one warning is the read failure; and with no
failure the loop has not returned, `Close` has not run, and the next turn
starts by setting the deadline from the new clock reading and reading. -/
theorem fetchUDPInput_idle_timeout (h : udpHandler) (conn : UDPConn) (input : PacketConn)
    (addr : Option UDPAddr) (pre : List FetchIter) (it : FetchIter) (rest : List FetchIter)
    (hpre : ∀ x ∈ pre, FetchIter.ok x = true) :
    (∀ iters,
      readsFollowDeadline (fetchUDPInput h conn input addr iters).events = true ∧
      deadlines (fetchUDPInput h conn input addr iters).events =
        (consumed iters).map (fun x => (input, x.now + h.timeout)) ∧
      reads (fetchUDPInput h conn input addr iters).events =
        (consumed iters).map (fun _ => input)) ∧
    (∀ e, it.read.err = some e → e.netTimeout = some true →
      (fetchUDPInput h conn input addr (pre ++ it :: rest)).returned = true ∧
      (fetchUDPInput h conn input addr (pre ++ it :: rest)).h = (Close h conn).h ∧
      (fetchUDPInput h conn input addr (pre ++ it :: rest)).events =
        (fetchUDPInput h conn input addr pre).events ++
          [Event.setDeadline input (it.now + h.timeout), Event.readFrom input] ++
          (Close h conn).events ++ [Event.bufPut] ∧
      countConnClose conn (fetchUDPInput h conn input addr (pre ++ it :: rest)).events = 1 ∧
      warnings (fetchUDPInput h conn input addr (pre ++ it :: rest)).events = []) ∧
    (∀ e, it.read.err = some e → e.netTimeout ≠ some true →
      (fetchUDPInput h conn input addr (pre ++ it :: rest)).returned = true ∧
      (fetchUDPInput h conn input addr (pre ++ it :: rest)).h = (Close h conn).h ∧
      (fetchUDPInput h conn input addr (pre ++ it :: rest)).events =
        (fetchUDPInput h conn input addr pre).events ++
          [Event.setDeadline input (it.now + h.timeout), Event.readFrom input,
           Event.logWarn ("failed to read UDP data from remote: " ++ e.text)] ++
          (Close h conn).events ++ [Event.bufPut] ∧
      countConnClose conn (fetchUDPInput h conn input addr (pre ++ it :: rest)).events = 1 ∧
      warnings (fetchUDPInput h conn input addr (pre ++ it :: rest)).events =
        ["failed to read UDP data from remote: " ++ e.text]) ∧
    ((fetchUDPInput h conn input addr pre).returned = false ∧
      (fetchUDPInput h conn input addr pre).h = h ∧
      countConnClose conn (fetchUDPInput h conn input addr pre).events = 0 ∧
      ∃ tail, (fetchUDPInput h conn input addr (pre ++ it :: rest)).events =
        (fetchUDPInput h conn input addr pre).events ++
          Event.setDeadline input (it.now + h.timeout) :: Event.readFrom input :: tail) := by
  have hok := fetchLoop_ok_trace h conn input addr pre hpre
  obtain ⟨_, o2, _, _, o5⟩ := hok
  obtain ⟨_, c2, _, _, c5⟩ := Close_trace h conn
  have hrun := fetchUDPInput_running h conn input addr pre hpre
  refine ⟨fetchUDPInput_deadlines h conn input addr, ?_, ?_, ?_⟩
  · intro e he hn
    have hnot : FetchIter.ok it = false := by simp [FetchIter.ok, he]
    have hsingle : (fetchLoop h conn input addr [it]).1 =
        [Event.setDeadline input (it.now + h.timeout), Event.readFrom input] := by
      simp [fetchLoop, he, hn]
    rw [fetchUDPInput_stop h conn input addr pre it rest hpre hnot, hrun, hsingle]
    refine ⟨rfl, rfl, by simp, ?_, ?_⟩
    · simp only [countConnClose] at o5 c5 ⊢
      generalize (Close h conn).events = ce at c5
      simp [List.count_append, o5, c5]
    · generalize (Close h conn).events = ce at c2
      simp [warnings, warnings_append, o2, c2]
  · intro e he hn
    have hnot : FetchIter.ok it = false := by simp [FetchIter.ok, he]
    have hsingle : (fetchLoop h conn input addr [it]).1 =
        [Event.setDeadline input (it.now + h.timeout), Event.readFrom input,
         Event.logWarn ("failed to read UDP data from remote: " ++ e.text)] := by
      cases hb : e.netTimeout with
      | none => simp [fetchLoop, he, hb]
      | some b =>
        cases b with
        | true => exact absurd hb hn
        | false => simp [fetchLoop, he, hb]
    rw [fetchUDPInput_stop h conn input addr pre it rest hpre hnot, hrun, hsingle]
    refine ⟨rfl, rfl, by simp, ?_, ?_⟩
    · simp only [countConnClose] at o5 c5 ⊢
      generalize (Close h conn).events = ce at c5
      simp [List.count_append, o5, c5]
    · generalize (Close h conn).events = ce at c2
      simp [warnings, warnings_append, o2, c2]
  · rw [hrun]
    refine ⟨rfl, rfl, ?_, ?_⟩
    · simp only [countConnClose] at o5 ⊢
      simp [o5]
    · by_cases hit : FetchIter.ok it = true
      · simp only [FetchIter.ok, Bool.and_eq_true, Option.isNone_iff_eq_none] at hit
        have hp2 : ∀ x ∈ pre ++ [it], FetchIter.ok x = true := by
          intro x hx
          rcases List.mem_append.mp hx with hx | hx
          · exact hpre x hx
          · simp only [List.mem_singleton] at hx
            subst hx
            simp [FetchIter.ok, hit.1, hit.2]
        refine ⟨Event.writeFrom conn (it.read.buf.take it.read.n) addr ::
          (fetchUDPInput h conn input addr rest).events.tail, ?_⟩
        unfold fetchUDPInput
        rw [(fetchLoop_append_ok h conn input addr pre (it :: rest) hpre).1,
          fetchLoop_cons_ok _ _ _ _ _ _ hit.1 hit.2]
        cases hr : fetchLoop h conn input addr rest with
        | mk evs b => cases b <;> simp
      · simp only [Bool.not_eq_true] at hit
        rw [fetchUDPInput_stop h conn input addr pre it rest hpre hit]
        cases hr : it.read.err with
        | some e =>
          cases hn : e.netTimeout with
          | none => simp [fetchLoop, hr, hn]
          | some b => cases b <;> simp [fetchLoop, hr, hn]
        | none =>
          cases hw : it.write with
          | some e => simp [fetchLoop, hr, hw]
          | none => simp [FetchIter.ok, hr, hw] at hit

/-- C8 after one relayed datagram: the next read times out, the loop returns
and nothing is logged as a warning. -/
theorem fetchUDPInput_idle_timeout_witness :
    (∀ x ∈ [exOkIter], FetchIter.ok x = true) ∧
    (fetchUDPInput exHandler exConn exSock (some exTarget)
      ([exOkIter] ++ exTimeoutIter :: [])).returned = true ∧
    warnings (fetchUDPInput exHandler exConn exSock (some exTarget)
      ([exOkIter] ++ exTimeoutIter :: [])).events = [] :=
  ⟨by decide,
   ((fetchUDPInput_idle_timeout exHandler exConn exSock (some exTarget) [exOkIter]
      exTimeoutIter [] (by decide)).2.1 exTimeoutErr rfl rfl).1,
   ((fetchUDPInput_idle_timeout exHandler exConn exSock (some exTarget) [exOkIter]
      exTimeoutIter [] (by decide)).2.1 exTimeoutErr rfl rfl).2.2.2.2⟩

/-- C9 on the connected flow `exConn`, with a write that fails: one `WriteTo`
to the stored relay address over the stored connection. -/
theorem ReceiveTo_forward_witness :
    SyncMap.Load exActive.remoteAddrMap exConn = some exRelay ∧
    SyncMap.Load exActive.remoteConnMap exConn = some exStored ∧
    writeToCalls (ReceiveTo exEnv exActive exConn [1, 2, 3] (some exTarget)
      (some exOtherErr)).events = [(exStored, [1, 2, 3], exRelay)] :=
  ⟨rfl, rfl,
   (ReceiveTo_forward exEnv exActive exConn [1, 2, 3] (some exTarget) (some exOtherErr)
      exRelay exStored rfl rfl).1⟩

/-- C4 fails as stated. On a handler with a session stater, `exConn` is
connected (one `AddSession`), a `ReceiveTo` write failure runs `Close`, and the
goroutine of the flow then ends on its failed read and runs `Close` again:
`RemoveSession(exConn)` is called twice. On a handler without a session
stater a successful `Connect` calls `AddSession` not at all. -/
theorem session_calls_counterexample :
    ((Connect exEnv exHandler exConn (some exTarget) (Except.ok (exSock, exRelay)) 5).err = none ∧
     goroutines (Connect exEnv exHandler exConn (some exTarget)
       (Except.ok (exSock, exRelay)) 5).events = [(exConn, exStored, some exTarget)] ∧
     countRemoveSession exConn
       ((Connect exEnv exHandler exConn (some exTarget) (Except.ok (exSock, exRelay)) 5).events
         ++ (run exEnv exActive exAfterConnect).2) = 2 ∧
     ¬ (countAddSession exConn
         ((Connect exEnv exHandler exConn (some exTarget) (Except.ok (exSock, exRelay)) 5).events
           ++ (run exEnv exActive exAfterConnect).2) = 1 ∧
        countRemoveSession exConn
         ((Connect exEnv exHandler exConn (some exTarget) (Except.ok (exSock, exRelay)) 5).events
           ++ (run exEnv exActive exAfterConnect).2) = 1)) ∧
    ((Connect exEnv exHandlerPlain exConn (some exTarget)
       (Except.ok (exSock, exRelay)) 5).err = none ∧
     countAddSession exConn (Connect exEnv exHandlerPlain exConn (some exTarget)
       (Except.ok (exSock, exRelay)) 5).events = 0) := by
  decide

/-! ## Sequences of calls: the two index maps go together -/

theorem Close_paired (h : udpHandler) (conn : UDPConn)
    (hp : ∀ c, (SyncMap.Load h.remoteAddrMap c).isSome = (SyncMap.Load h.remoteConnMap c).isSome) :
    ∀ c, (SyncMap.Load (Close h conn).h.remoteAddrMap c).isSome =
      (SyncMap.Load (Close h conn).h.remoteConnMap c).isSome := by
  intro c
  rw [Close_remoteAddrMap_Load, Close_remoteConnMap_Load]
  by_cases hc : c = conn
  · simp [hc]
  · simp [hc, hp c]

theorem Connect_paired (env : Env) (h : udpHandler) (conn : UDPConn) (target : Option UDPAddr)
    (dial : Except GoError (PacketConn × Addr)) (now : Time)
    (hp : ∀ c, (SyncMap.Load h.remoteAddrMap c).isSome = (SyncMap.Load h.remoteConnMap c).isSome) :
    ∀ c, (SyncMap.Load (Connect env h conn target dial now).h.remoteAddrMap c).isSome =
      (SyncMap.Load (Connect env h conn target dial now).h.remoteConnMap c).isSome := by
  intro c
  cases target with
  | none => exact hp c
  | some t =>
    rw [Connect_some_eq]
    cases dial with
    | error e => exact hp c
    | ok p =>
      obtain ⟨rc, ra⟩ := p
      by_cases hc : c = conn
      · subst hc
        simp [SyncMap.Load_Store_self]
      · simp [SyncMap.Load_Store_ne _ _ _ _ hc, hp c]

theorem ReceiveTo_h (env : Env) (h : udpHandler) (conn : UDPConn) (data : Bytes)
    (addr : Option UDPAddr) (w : Option GoError) :
    (ReceiveTo env h conn data addr w).h = h ∨
    (ReceiveTo env h conn data addr w).h = (Close h conn).h := by
  cases ha : SyncMap.Load h.remoteAddrMap conn with
  | none => rw [ReceiveTo_missing env h conn data addr w (Or.inl ha)]; exact Or.inr rfl
  | some ra =>
    cases hc : SyncMap.Load h.remoteConnMap conn with
    | none => rw [ReceiveTo_missing env h conn data addr w (Or.inr hc)]; exact Or.inr rfl
    | some rc =>
      rw [ReceiveTo_present env h conn data addr w ra rc ha hc]
      cases w with
      | none => exact Or.inl rfl
      | some e => exact Or.inr rfl

theorem fetchUDPInput_h (h : udpHandler) (conn : UDPConn) (input : PacketConn)
    (addr : Option UDPAddr) (iters : List FetchIter) :
    (fetchUDPInput h conn input addr iters).h = h ∨
    (fetchUDPInput h conn input addr iters).h = (Close h conn).h := by
  rw [fetchUDPInput_split]
  cases iters.dropWhile FetchIter.ok with
  | nil => exact Or.inl rfl
  | cons it rest => exact Or.inr rfl

theorem applyOp_paired (env : Env) (h : udpHandler) (op : Op)
    (hp : ∀ c, (SyncMap.Load h.remoteAddrMap c).isSome = (SyncMap.Load h.remoteConnMap c).isSome) :
    ∀ c, (SyncMap.Load (applyOp env h op).1.remoteAddrMap c).isSome =
      (SyncMap.Load (applyOp env h op).1.remoteConnMap c).isSome := by
  cases op with
  | connect conn target dial now => exact Connect_paired env h conn target dial now hp
  | receiveTo conn data addr w =>
    intro c
    show (SyncMap.Load (ReceiveTo env h conn data addr w).h.remoteAddrMap c).isSome =
      (SyncMap.Load (ReceiveTo env h conn data addr w).h.remoteConnMap c).isSome
    rcases ReceiveTo_h env h conn data addr w with hh | hh
    · rw [hh]; exact hp c
    · rw [hh]; exact Close_paired h conn hp c
  | close conn => exact Close_paired h conn hp
  | fetch conn input addr iters =>
    intro c
    show (SyncMap.Load (fetchUDPInput h conn input addr iters).h.remoteAddrMap c).isSome =
      (SyncMap.Load (fetchUDPInput h conn input addr iters).h.remoteConnMap c).isSome
    rcases fetchUDPInput_h h conn input addr iters with hh | hh
    · rw [hh]; exact hp c
    · rw [hh]; exact Close_paired h conn hp c

theorem run_paired (env : Env) (ops : List Op) :
    ∀ h : udpHandler,
      (∀ c, (SyncMap.Load h.remoteAddrMap c).isSome = (SyncMap.Load h.remoteConnMap c).isSome) →
      ∀ c, (SyncMap.Load (run env h ops).1.remoteAddrMap c).isSome =
        (SyncMap.Load (run env h ops).1.remoteConnMap c).isSome := by
  induction ops with
  | nil => intro h hp; exact hp
  | cons op ops ih =>
    intro h hp
    exact ih (applyOp env h op).1 (applyOp_paired env h op hp)

theorem applyOp_inserts (env : Env) (h : udpHandler) (op : Op) (c : UDPConn)
    (ha : SyncMap.Load h.remoteAddrMap c = none) (hc : SyncMap.Load h.remoteConnMap c = none)
    (hnew : (SyncMap.Load (applyOp env h op).1.remoteAddrMap c).isSome = true ∨
      (SyncMap.Load (applyOp env h op).1.remoteConnMap c).isSome = true) :
    ∃ t rc ra now, op = Op.connect c (some t) (Except.ok (rc, ra)) now := by
  have hclose : ∀ conn, ¬ ((SyncMap.Load (Close h conn).h.remoteAddrMap c).isSome = true ∨
      (SyncMap.Load (Close h conn).h.remoteConnMap c).isSome = true) := by
    intro conn
    rw [Close_remoteAddrMap_Load, Close_remoteConnMap_Load]
    by_cases hcc : c = conn <;> simp [hcc, ha, hc]
  have hsame : ¬ ((SyncMap.Load h.remoteAddrMap c).isSome = true ∨
      (SyncMap.Load h.remoteConnMap c).isSome = true) := by simp [ha, hc]
  cases op with
  | connect conn target dial now =>
    cases target with
    | none => exact absurd hnew hsame
    | some t =>
      cases dial with
      | error e =>
        simp only [applyOp, Connect_some_eq] at hnew
        exact absurd hnew hsame
      | ok p =>
        obtain ⟨rc, ra⟩ := p
        by_cases hcc : c = conn
        · subst hcc
          exact ⟨t, rc, ra, now, rfl⟩
        · simp only [applyOp, Connect_some_eq, SyncMap.Load_Store_ne _ _ _ _ hcc] at hnew
          exact absurd hnew hsame
  | receiveTo conn data addr w =>
    simp only [applyOp] at hnew
    rcases ReceiveTo_h env h conn data addr w with hh | hh
    · rw [hh] at hnew; exact absurd hnew hsame
    · rw [hh] at hnew; exact absurd hnew (hclose conn)
  | close conn =>
    exact absurd hnew (hclose conn)
  | fetch conn input addr iters =>
    simp only [applyOp] at hnew
    rcases fetchUDPInput_h h conn input addr iters with hh | hh
    · rw [hh] at hnew; exact absurd hnew hsame
    · rw [hh] at hnew; exact absurd hnew (hclose conn)

/-- C6: after any sequence of completed calls (`Connect`, `ReceiveTo`, `Close`,
and runs of `fetchUDPInput`) on a freshly constructed handler, a flow has an
entry in `remoteAddrMap` exactly when it has one in `remoteConnMap`. A
`Connect` that returns an error leaves both maps unchanged, a `Connect` that
returns nil has stored both entries, a flow absent from both maps gets an
entry only through a `Connect` on it whose dial succeeded, and `Close` removes
both entries. -/
theorem index_maps_paired (env : Env) (proxyHost : String) (proxyPort : Int) (timeout : Time)
    (fakeDns : Option FakeDns) (sessionStater : Option SessionStater) (ops : List Op)
    (conn : UDPConn) :
    ((SyncMap.Load (run env (NewUDPHandler proxyHost proxyPort timeout fakeDns sessionStater)
        ops).1.remoteAddrMap conn).isSome = true ↔
      (SyncMap.Load (run env (NewUDPHandler proxyHost proxyPort timeout fakeDns sessionStater)
        ops).1.remoteConnMap conn).isSome = true) ∧
    (∀ h target dial now, (Connect env h conn target dial now).err ≠ none →
      (Connect env h conn target dial now).h.remoteAddrMap = h.remoteAddrMap ∧
      (Connect env h conn target dial now).h.remoteConnMap = h.remoteConnMap) ∧
    (∀ h target dial now, (Connect env h conn target dial now).err = none →
      (SyncMap.Load (Connect env h conn target dial now).h.remoteAddrMap conn).isSome = true ∧
      (SyncMap.Load (Connect env h conn target dial now).h.remoteConnMap conn).isSome = true) ∧
    (∀ h op, SyncMap.Load h.remoteAddrMap conn = none →
      SyncMap.Load h.remoteConnMap conn = none →
      ((SyncMap.Load (applyOp env h op).1.remoteAddrMap conn).isSome = true ∨
        (SyncMap.Load (applyOp env h op).1.remoteConnMap conn).isSome = true) →
      ∃ t rc ra now, op = Op.connect conn (some t) (Except.ok (rc, ra)) now) ∧
    (∀ h, SyncMap.Load (Close h conn).h.remoteAddrMap conn = none ∧
      SyncMap.Load (Close h conn).h.remoteConnMap conn = none) := by
  refine ⟨?_, ?_, ?_, ?_, ?_⟩
  · have hp := run_paired env ops
      (NewUDPHandler proxyHost proxyPort timeout fakeDns sessionStater) (fun _ => rfl) conn
    rw [hp]
  · intro h target dial now herr
    cases target with
    | none => exact ⟨rfl, rfl⟩
    | some t =>
      rw [Connect_some_eq] at herr ⊢
      cases dial with
      | error e => exact ⟨rfl, rfl⟩
      | ok p => exact absurd rfl herr
  · intro h target dial now herr
    cases target with
    | none => exact Option.noConfusion herr
    | some t =>
      rw [Connect_some_eq] at herr ⊢
      cases dial with
      | error e => exact Option.noConfusion herr
      | ok p =>
        obtain ⟨rc, ra⟩ := p
        simp [SyncMap.Load_Store_self]
  · intro h op ha hc hnew
    exact applyOp_inserts env h op conn ha hc hnew
  · intro h
    rw [Close_remoteAddrMap_Load, Close_remoteConnMap_Load]
    simp

/-! ## Session calls over the life of a flow -/

theorem countAddSession_append (c : UDPConn) (a b : List Event) :
    countAddSession c (a ++ b) = countAddSession c a + countAddSession c b := by
  induction a with
  | nil => simp [countAddSession]
  | cons e rest ih => cases e <;> simp [countAddSession, ih, Nat.add_assoc]

theorem Close_session_counts (h : udpHandler) (conn c : UDPConn) :
    countAddSession c (Close h conn).events = 0 ∧
    countRemoveSession c (Close h conn).events =
      (if h.sessionStater.isSome then countConnClose c (Close h conn).events else 0) := by
  refine ⟨Close_countAddSession h conn c, ?_⟩
  rw [Close_events]
  by_cases hc : conn = c
  · cases SyncMap.Load h.remoteConnMap conn <;> cases h.sessionStater <;>
      simp [countRemoveSession, countConnClose, hc]
  · cases SyncMap.Load h.remoteConnMap conn <;> cases h.sessionStater <;>
      simp [countRemoveSession, countConnClose, List.count_cons, hc]

theorem fetchLoop_session_counts (h : udpHandler) (conn : UDPConn) (input : PacketConn)
    (addr : Option UDPAddr) (c : UDPConn) (iters : List FetchIter) :
    countAddSession c (fetchLoop h conn input addr iters).1 = 0 ∧
    countRemoveSession c (fetchLoop h conn input addr iters).1 = 0 ∧
    countConnClose c (fetchLoop h conn input addr iters).1 = 0 := by
  induction iters with
  | nil => simp [fetchLoop, countAddSession, countRemoveSession, countConnClose]
  | cons it rest ih =>
    obtain ⟨i1, i2, i3⟩ := ih
    simp only [countRemoveSession, countConnClose] at i2 i3
    cases hr : it.read.err with
    | some e =>
      cases hn : e.netTimeout with
      | none => simp [fetchLoop, hr, hn, countAddSession, countRemoveSession, countConnClose]
      | some b =>
        cases b <;>
          simp [fetchLoop, hr, hn, countAddSession, countRemoveSession, countConnClose]
    | none =>
      cases hw : it.write with
      | some e => simp [fetchLoop, hr, hw, countAddSession, countRemoveSession, countConnClose]
      | none =>
        simp [fetchLoop, hr, hw, countAddSession, countRemoveSession, countConnClose, i1, i2, i3]

theorem fetchUDPInput_session_counts (h : udpHandler) (conn : UDPConn) (input : PacketConn)
    (addr : Option UDPAddr) (c : UDPConn) (iters : List FetchIter) :
    countAddSession c (fetchUDPInput h conn input addr iters).events = 0 ∧
    countRemoveSession c (fetchUDPInput h conn input addr iters).events =
      (if h.sessionStater.isSome then
        countConnClose c (fetchUDPInput h conn input addr iters).events else 0) := by
  obtain ⟨f1, f2, f3⟩ := fetchLoop_session_counts h conn input addr c iters
  obtain ⟨c1, c2⟩ := Close_session_counts h conn c
  simp only [countRemoveSession, countConnClose] at f2 f3 c2
  unfold fetchUDPInput
  generalize fetchLoop h conn input addr iters = r at f1 f2 f3
  obtain ⟨evs, b⟩ := r
  simp only at f1 f2 f3
  generalize hce : Close h conn = cl at c1 c2
  cases b with
  | false =>
    simp [countAddSession, countRemoveSession, countConnClose, f1, f2, f3]
  | true =>
    simp only [hce]
    simp [countAddSession, countAddSession_append, countRemoveSession, countConnClose,
      List.count_append, f1, f2, f3, c1, c2]

theorem ReceiveTo_session_counts (env : Env) (h : udpHandler) (conn : UDPConn) (data : Bytes)
    (addr : Option UDPAddr) (w : Option GoError) (c : UDPConn) :
    countAddSession c (ReceiveTo env h conn data addr w).events = 0 ∧
    countRemoveSession c (ReceiveTo env h conn data addr w).events =
      (if h.sessionStater.isSome then
        countConnClose c (ReceiveTo env h conn data addr w).events else 0) := by
  obtain ⟨c1, c2⟩ := Close_session_counts h conn c
  simp only [countRemoveSession, countConnClose] at c2
  have hmiss : ∀ _ : SyncMap.Load h.remoteAddrMap conn = none ∨
      SyncMap.Load h.remoteConnMap conn = none, countAddSession c (ReceiveTo env h conn data addr w).events = 0 ∧
      countRemoveSession c (ReceiveTo env h conn data addr w).events =
        (if h.sessionStater.isSome then
          countConnClose c (ReceiveTo env h conn data addr w).events else 0) := by
    intro hm
    rw [ReceiveTo_missing env h conn data addr w hm]
    exact ⟨c1, c2⟩
  cases ha : SyncMap.Load h.remoteAddrMap conn with
  | none => exact hmiss (Or.inl ha)
  | some ra =>
    cases hc : SyncMap.Load h.remoteConnMap conn with
    | none => exact hmiss (Or.inr hc)
    | some rc =>
      rw [ReceiveTo_present env h conn data addr w ra rc ha hc]
      cases w with
      | none => simp [countAddSession, countRemoveSession, countConnClose]
      | some e =>
        generalize Close h conn = cl at c1 c2
        simp [countAddSession, countRemoveSession, countConnClose, c1, c2]

theorem Connect_session_counts (env : Env) (h : udpHandler) (conn : UDPConn)
    (target : Option UDPAddr) (dial : Except GoError (PacketConn × Addr)) (now : Time)
    (c : UDPConn) :
    countRemoveSession c (Connect env h conn target dial now).events = 0 ∧
    countConnClose c (Connect env h conn target dial now).events = 0 ∧
    (conn ≠ c → countAddSession c (Connect env h conn target dial now).events = 0) := by
  cases target with
  | none => simp [Connect, countAddSession, countRemoveSession, countConnClose]
  | some t =>
    rw [Connect_some_eq]
    cases dial with
    | error e => simp [countAddSession, countRemoveSession, countConnClose]
    | ok p =>
      obtain ⟨rc, ra⟩ := p
      cases hs : h.sessionStater <;>
        simp [countAddSession, countRemoveSession, countConnClose]

theorem applyOp_sessionStater (env : Env) (h : udpHandler) (op : Op) :
    (applyOp env h op).1.sessionStater = h.sessionStater := by
  cases op with
  | connect conn target dial now =>
    cases target with
    | none => rfl
    | some t =>
      simp only [applyOp, Connect_some_eq]
      cases dial with
      | error e => rfl
      | ok p => rfl
  | receiveTo conn data addr w =>
    simp only [applyOp]
    rcases ReceiveTo_h env h conn data addr w with hh | hh
    · rw [hh]
    · rw [hh]; exact (Close_config h conn).1
  | close conn => exact (Close_config h conn).1
  | fetch conn input addr iters =>
    simp only [applyOp]
    rcases fetchUDPInput_h h conn input addr iters with hh | hh
    · rw [hh]
    · rw [hh]; exact (Close_config h conn).1

theorem applyOp_session_counts (env : Env) (h : udpHandler) (op : Op) (c : UDPConn)
    (hop : ∀ tg d n, op ≠ Op.connect c tg d n) :
    countAddSession c (applyOp env h op).2 = 0 ∧
    countRemoveSession c (applyOp env h op).2 =
      (if h.sessionStater.isSome then countConnClose c (applyOp env h op).2 else 0) := by
  cases op with
  | connect conn target dial now =>
    have hne : conn ≠ c := by
      intro hcc
      subst hcc
      exact hop target dial now rfl
    obtain ⟨k1, k2, k3⟩ := Connect_session_counts env h conn target dial now c
    simp only [applyOp]
    rw [k1, k2, k3 hne]
    simp
  | receiveTo conn data addr w => exact ReceiveTo_session_counts env h conn data addr w c
  | close conn => exact Close_session_counts h conn c
  | fetch conn input addr iters => exact fetchUDPInput_session_counts h conn input addr c iters

theorem run_session_counts (env : Env) (c : UDPConn) (ops : List Op) :
    ∀ h : udpHandler, (∀ op ∈ ops, ∀ tg d n, op ≠ Op.connect c tg d n) →
      countAddSession c (run env h ops).2 = 0 ∧
      countRemoveSession c (run env h ops).2 =
        (if h.sessionStater.isSome then countConnClose c (run env h ops).2 else 0) := by
  induction ops with
  | nil => intro h _; simp [run, countAddSession, countRemoveSession, countConnClose]
  | cons op ops ih =>
    intro h hops
    obtain ⟨a1, a2⟩ := applyOp_session_counts env h op c (hops op (List.mem_cons_self _ _))
    obtain ⟨r1, r2⟩ := ih (applyOp env h op).1 (fun o ho => hops o (List.mem_cons_of_mem _ ho))
    rw [applyOp_sessionStater] at r2
    simp only [countRemoveSession, countConnClose] at a2 r2 ⊢
    simp only [run, countAddSession_append, List.count_append, a1, r1, a2, r2]
    cases h.sessionStater <;> simp

theorem fetchUDPInput_returned_closes (h : udpHandler) (conn : UDPConn) (input : PacketConn)
    (addr : Option UDPAddr) (iters : List FetchIter)
    (hret : (fetchUDPInput h conn input addr iters).returned = true) :
    countConnClose conn (fetchUDPInput h conn input addr iters).events = 1 := by
  obtain ⟨_, _, f3⟩ := fetchLoop_session_counts h conn input addr conn iters
  have c5 := (Close_trace h conn).2.2.2.2
  simp only [countConnClose] at f3 c5 ⊢
  unfold fetchUDPInput at hret ⊢
  generalize fetchLoop h conn input addr iters = r at f3 hret
  obtain ⟨evs, b⟩ := r
  simp only at f3
  generalize hce : Close h conn = cl at c5
  cases b with
  | false => simp at hret
  | true =>
    simp only [hce]
    simp [List.count_append, f3, c5]

/-- C4 as amended. Take a flow whose `Connect` succeeds, followed by any calls
and goroutine runs on the handler among which is no further `Connect` of that
flow. With a session stater configured, `AddSession(conn, _)` is called exactly
once, in `Connect` and before any `RemoveSession(conn)`, and `RemoveSession(conn)`
is called once per run of `Close(conn)`; when the flow ends only through its
`fetchUDPInput` loop returning, that is exactly once. With no session stater
neither is called. -/
theorem session_calls_per_flow (env : Env) (h : udpHandler) (conn : UDPConn) (t : UDPAddr)
    (rc : PacketConn) (ra : Addr) (now : Time) (ops : List Op)
    (hops : ∀ op ∈ ops, ∀ tg d n, op ≠ Op.connect conn tg d n) :
    (h.sessionStater.isSome = true →
      countAddSession conn ((Connect env h conn (some t) (Except.ok (rc, ra)) now).events ++
        (run env (Connect env h conn (some t) (Except.ok (rc, ra)) now).h ops).2) = 1 ∧
      countRemoveSession conn ((Connect env h conn (some t) (Except.ok (rc, ra)) now).events ++
        (run env (Connect env h conn (some t) (Except.ok (rc, ra)) now).h ops).2) =
        countConnClose conn ((Connect env h conn (some t) (Except.ok (rc, ra)) now).events ++
          (run env (Connect env h conn (some t) (Except.ok (rc, ra)) now).h ops).2) ∧
      ∃ pre sess post,
        (Connect env h conn (some t) (Except.ok (rc, ra)) now).events ++
          (run env (Connect env h conn (some t) (Except.ok (rc, ra)) now).h ops).2 =
          pre ++ Event.addSession conn sess :: post ∧
        countAddSession conn pre = 0 ∧ countRemoveSession conn pre = 0 ∧
        countAddSession conn post = 0) ∧
    (h.sessionStater = none →
      countAddSession conn ((Connect env h conn (some t) (Except.ok (rc, ra)) now).events ++
        (run env (Connect env h conn (some t) (Except.ok (rc, ra)) now).h ops).2) = 0 ∧
      countRemoveSession conn ((Connect env h conn (some t) (Except.ok (rc, ra)) now).events ++
        (run env (Connect env h conn (some t) (Except.ok (rc, ra)) now).h ops).2) = 0) ∧
    (∀ input addr iters, h.sessionStater.isSome = true →
      (fetchUDPInput (Connect env h conn (some t) (Except.ok (rc, ra)) now).h conn input addr
        iters).returned = true →
      countAddSession conn ((Connect env h conn (some t) (Except.ok (rc, ra)) now).events ++
        (run env (Connect env h conn (some t) (Except.ok (rc, ra)) now).h
          [Op.fetch conn input addr iters]).2) = 1 ∧
      countRemoveSession conn ((Connect env h conn (some t) (Except.ok (rc, ra)) now).events ++
        (run env (Connect env h conn (some t) (Except.ok (rc, ra)) now).h
          [Op.fetch conn input addr iters]).2) = 1) := by
  have hst : (Connect env h conn (some t) (Except.ok (rc, ra)) now).h.sessionStater =
      h.sessionStater := applyOp_sessionStater env h (Op.connect conn (some t) (Except.ok (rc, ra)) now)
  obtain ⟨k1, k2, _⟩ := Connect_session_counts env h conn (some t) (Except.ok (rc, ra)) now conn
  have hrun : ∀ ops2 : List Op, (∀ op ∈ ops2, ∀ tg d n, op ≠ Op.connect conn tg d n) →
      countAddSession conn
        (run env (Connect env h conn (some t) (Except.ok (rc, ra)) now).h ops2).2 = 0 ∧
      countRemoveSession conn
        (run env (Connect env h conn (some t) (Except.ok (rc, ra)) now).h ops2).2 =
        (if h.sessionStater.isSome then countConnClose conn
          (run env (Connect env h conn (some t) (Except.ok (rc, ra)) now).h ops2).2 else 0) := by
    intro ops2 h2
    have := run_session_counts env conn ops2
      (Connect env h conn (some t) (Except.ok (rc, ra)) now).h h2
    rw [hst] at this
    exact this
  have hadd : h.sessionStater.isSome = true →
      ∃ sess post0,
        (Connect env h conn (some t) (Except.ok (rc, ra)) now).events =
          [Event.dialUDP (JoinHostPort h.proxyHost (Itoa h.proxyPort))
            (JoinHostPort (targetHost env h t) (Itoa t.Port))] ++
            Event.addSession conn sess :: post0 ∧
        countAddSession conn post0 = 0 := by
    intro hs
    rw [Connect_some_eq]
    cases hss : h.sessionStater with
    | none => simp [hss] at hs
    | some s => exact ⟨_, _, rfl, rfl⟩
  have hcount : ∀ a b : List Event, countRemoveSession conn (a ++ b) =
      countRemoveSession conn a + countRemoveSession conn b := by
    intro a b; simp [countRemoveSession, List.count_append]
  have hcount2 : ∀ a b : List Event, countConnClose conn (a ++ b) =
      countConnClose conn a + countConnClose conn b := by
    intro a b; simp [countConnClose, List.count_append]
  refine ⟨?_, ?_, ?_⟩
  · intro hs
    obtain ⟨r1, r2⟩ := hrun ops hops
    obtain ⟨sess, post0, he, hp0⟩ := hadd hs
    have hadd1 : countAddSession conn
        (Connect env h conn (some t) (Except.ok (rc, ra)) now).events = 1 := by
      rw [he]; simp [countAddSession, countAddSession_append, hp0]
    refine ⟨?_, ?_, ?_⟩
    · rw [countAddSession_append, hadd1, r1]
    · rw [hcount, hcount2, k1, k2, r2, if_pos hs]
    · refine ⟨[Event.dialUDP (JoinHostPort h.proxyHost (Itoa h.proxyPort))
          (JoinHostPort (targetHost env h t) (Itoa t.Port))], sess, post0 ++
        (run env (Connect env h conn (some t) (Except.ok (rc, ra)) now).h ops).2, ?_, ?_, ?_, ?_⟩
      · rw [he]; simp
      · simp [countAddSession]
      · simp [countRemoveSession]
      · rw [countAddSession_append, hp0, r1]
  · intro hs
    obtain ⟨r1, r2⟩ := hrun ops hops
    have hadd0 : countAddSession conn
        (Connect env h conn (some t) (Except.ok (rc, ra)) now).events = 0 := by
      rw [Connect_some_eq]; simp [hs, countAddSession]
    refine ⟨?_, ?_⟩
    · rw [countAddSession_append, hadd0, r1]
    · rw [hcount, k1, r2, hs]; simp
  · intro input addr iters hs hret
    have hops2 : ∀ op ∈ [Op.fetch conn input addr iters], ∀ tg d n,
        op ≠ Op.connect conn tg d n := by
      intro op hop tg d n
      simp only [List.mem_singleton] at hop
      subst hop
      intro hcontra
      exact Op.noConfusion hcontra
    obtain ⟨r1, r2⟩ := hrun [Op.fetch conn input addr iters] hops2
    obtain ⟨sess, post0, he, hp0⟩ := hadd hs
    have hadd1 : countAddSession conn
        (Connect env h conn (some t) (Except.ok (rc, ra)) now).events = 1 := by
      rw [he]; simp [countAddSession, countAddSession_append, hp0]
    have hcl := fetchUDPInput_returned_closes _ conn input addr iters hret
    have hcl2 : countConnClose conn
        (run env (Connect env h conn (some t) (Except.ok (rc, ra)) now).h
          [Op.fetch conn input addr iters]).2 = 1 := by
      simp only [run, applyOp, List.append_nil]
      exact hcl
    refine ⟨?_, ?_⟩
    · rw [countAddSession_append, hadd1, r1]
    · rw [hcount, k1, r2, if_pos hs, hcl2]

/-- C4 as amended, on the run of the counterexample: one `AddSession`, and as
many `RemoveSession` calls as `Close` ran. -/
theorem session_calls_per_flow_witness :
    (∀ op ∈ exAfterConnect, ∀ tg d n, op ≠ Op.connect exConn tg d n) ∧
    exHandler.sessionStater.isSome = true ∧
    countAddSession exConn
      ((Connect exEnv exHandler exConn (some exTarget) (Except.ok (exSock, exRelay)) 5).events ++
        (run exEnv (Connect exEnv exHandler exConn (some exTarget)
          (Except.ok (exSock, exRelay)) 5).h exAfterConnect).2) = 1 :=
  have hops : ∀ op ∈ exAfterConnect, ∀ tg d n, op ≠ Op.connect exConn tg d n := by
    intro op hop tg d n hcontra
    subst hcontra
    simp [exAfterConnect] at hop
  ⟨hops, rfl,
   ((session_calls_per_flow exEnv exHandler exConn exTarget exSock exRelay 5 exAfterConnect
      hops).1 rfl).1⟩

/-- C6 at a `Connect` with a nil target on a fresh handler: it returns an
error and both maps stay as they were. -/
theorem index_maps_paired_witness :
    (Connect exEnv exHandler exConn none (Except.ok (exSock, exRelay)) 5).err ≠ none ∧
    (Connect exEnv exHandler exConn none (Except.ok (exSock, exRelay)) 5).h.remoteAddrMap =
      exHandler.remoteAddrMap ∧
    (Connect exEnv exHandler exConn none (Except.ok (exSock, exRelay)) 5).h.remoteConnMap =
      exHandler.remoteConnMap :=
  ⟨by decide,
   (index_maps_paired exEnv "127.0.0.1" 1080 30000000000 (some exDns) (some ⟨0⟩) [] exConn).2.1
     exHandler none (Except.ok (exSock, exRelay)) 5 (by decide)⟩

end Tun2socks
